import Mathlib

/-!
Boomer — verification of the destructible-terrain / projectile core.

A shallow embedding of the game's core simulation code:

* `src/js/player.js` — the `Terrain` material grid (`get`/`set`/`isSolid`/`isLava`/
  `destroyCircle`) and the `Player` entity's `takeDamage`/`applyKnockback`;
* `src/js/weapons.js` — the `WeaponSystem` (projectile update, landed mines,
  wrapping/culling, melee resolution, cluster splitting in `_explode`);
* `src/js/constants.js` — material resistances and weapon descriptors;
* the game loop's per-tick explosion processing (damage/knockback resolver).

Modelling conventions:

* JS numbers are modelled as exact rationals (`ℚ`); quantities that the source
  derives through `Math.sqrt` (distances, power falloff) are modelled as exact
  reals.  Comparisons of the form `a + b*sqrt n ≥ 0` that the source performs on
  floats are decided exactly over `ℚ` by `geAddMulSqrt`, with bridging lemmas
  relating the decision procedure to the `Real.sqrt` inequality.
* The `Uint8Array` terrain store is a total function `ℕ → ℕ`; writes reduce the
  stored value mod 256 exactly as a `Uint8Array` store does.
* JS `x | 0` is the int32 conversion `toInt32`; JS `Math.round` is `⌊x + 1/2⌋`;
  JS `a || b` on optional numeric fields is `jsOrQ` (`0`, like `undefined`, is
  falsy); reading an absent boolean property yields `undefined`, modelled as
  `none : Option Bool` with truthiness `jsTruthy`.
* Randomness (cluster scatter velocities) is supplied by an explicit oracle
  parameter, and purely cosmetic effects (particles, audio, tracers) are omitted.
-/

namespace Boomer

/-! ## JavaScript numeric semantics -/

/-- JS `Math.round x` — round half towards positive infinity. -/
def jsRound (q : ℚ) : ℤ := ⌊q + 1/2⌋

/-- JS `Math.round` on a real argument (used where the source rounds a
float-valued coordinate, e.g. the melee dig point). -/
noncomputable def jsRoundR (x : ℝ) : ℤ := ⌊x + 1/2⌋

/-- JS `x | 0` on an integer value: conversion to a signed 32-bit integer. -/
def toInt32 (x : ℤ) : ℤ := (x + 2 ^ 31) % 2 ^ 32 - 2 ^ 31

/-- JS `o || fallback` for an optional numeric field: `undefined` and `0` are
both falsy and select the fallback. -/
def jsOrQ (o : Option ℚ) (fallback : ℚ) : ℚ :=
  match o with
  | some v => if v = 0 then fallback else v
  | none => fallback

/-- Truthiness of an optional numeric field (`w.maxRange && …`). -/
def jsTruthyQ (o : Option ℚ) : Bool :=
  match o with
  | some v => decide (v ≠ 0)
  | none => false

/-- Truthiness of a possibly-absent boolean property (`!p.alive`): reading an
absent property yields `undefined`, which is falsy. -/
def jsTruthy (o : Option Bool) : Bool := o.getD false

/-! ## Exact decision of square-root comparisons

The source compares float expressions of the shape `a + b*Math.sqrt n` against
`0` (power falloff, distance tests).  Over exact rationals this is decidable by
squaring; `geAddMulSqrt`/`ltSqrtQ` implement the decision and the lemmas below
identify them with the real-number inequalities. -/

/-- Decide `0 ≤ a + b * Real.sqrt n` (for `0 ≤ n`) by exact rational
arithmetic. -/
def geAddMulSqrt (a b n : ℚ) : Bool :=
  if 0 ≤ b then decide (0 ≤ a) || decide (a ^ 2 ≤ b ^ 2 * n)
  else decide (0 ≤ a) && decide (b ^ 2 * n ≤ a ^ 2)

/-- Decide `Real.sqrt n < q` by exact rational arithmetic. -/
def ltSqrtQ (n q : ℚ) : Bool :=
  decide (0 < q) && decide (n < q * q)

theorem geAddMulSqrt_iff (a b n : ℚ) (hn : 0 ≤ n) :
    geAddMulSqrt a b n = true ↔ 0 ≤ (a : ℝ) + (b : ℝ) * Real.sqrt (n : ℝ) := by
  have hs : (0:ℝ) ≤ Real.sqrt (n : ℝ) := Real.sqrt_nonneg _
  have hs2 : Real.sqrt (n : ℝ) ^ 2 = (n : ℝ) := Real.sq_sqrt (by exact_mod_cast hn)
  set s : ℝ := Real.sqrt (n : ℝ) with hsdef
  unfold geAddMulSqrt
  split_ifs with hb
  · have hb' : (0:ℝ) ≤ (b : ℝ) := by exact_mod_cast hb
    simp only [Bool.or_eq_true, decide_eq_true_eq]
    constructor
    · rintro (ha | h2)
      · have ha' : (0:ℝ) ≤ (a : ℝ) := by exact_mod_cast ha
        nlinarith [mul_nonneg hb' hs]
      · have h2' : (a:ℝ) ^ 2 ≤ (b:ℝ) ^ 2 * (n:ℝ) := by exact_mod_cast h2
        nlinarith [mul_nonneg hb' hs, sq_nonneg ((b:ℝ) * s - (a:ℝ)), sq_nonneg ((b:ℝ) * s + (a:ℝ))]
    · intro h
      by_cases ha : 0 ≤ a
      · exact Or.inl ha
      · refine Or.inr ?_
        have ha' : (a:ℝ) < 0 := by exact_mod_cast lt_of_not_le ha
        have : (a:ℝ) ^ 2 ≤ (b:ℝ) ^ 2 * (n:ℝ) := by
          nlinarith [mul_nonneg hb' hs]
        exact_mod_cast this
  · have hb' : (b : ℝ) < 0 := by exact_mod_cast lt_of_not_le hb
    simp only [Bool.and_eq_true, decide_eq_true_eq]
    constructor
    · rintro ⟨ha, h2⟩
      have ha' : (0:ℝ) ≤ (a : ℝ) := by exact_mod_cast ha
      have h2' : (b:ℝ) ^ 2 * (n:ℝ) ≤ (a:ℝ) ^ 2 := by exact_mod_cast h2
      nlinarith [mul_nonneg (neg_nonneg.mpr hb'.le) hs]
    · intro h
      have hbs : (b:ℝ) * s ≤ 0 := mul_nonpos_of_nonpos_of_nonneg hb'.le hs
      have ha' : (0:ℝ) ≤ (a:ℝ) := by linarith
      constructor
      · exact_mod_cast ha'
      · have : (b:ℝ) ^ 2 * (n:ℝ) ≤ (a:ℝ) ^ 2 := by nlinarith
        exact_mod_cast this

theorem ltSqrtQ_iff (n q : ℚ) :
    ltSqrtQ n q = true ↔ Real.sqrt (n : ℝ) < (q : ℝ) := by
  unfold ltSqrtQ
  simp only [Bool.and_eq_true, decide_eq_true_eq]
  constructor
  · rintro ⟨hq, h⟩
    have hq' : (0:ℝ) < (q : ℝ) := by exact_mod_cast hq
    rw [Real.sqrt_lt' hq']
    have : (n:ℝ) < (q:ℝ) * (q:ℝ) := by exact_mod_cast h
    nlinarith
  · intro h
    have hq' : (0:ℝ) < (q:ℝ) := lt_of_le_of_lt (Real.sqrt_nonneg _) h
    rw [Real.sqrt_lt' hq'] at h
    constructor
    · exact_mod_cast hq'
    · have : (n:ℝ) < (q:ℝ) * (q:ℝ) := by nlinarith
      exact_mod_cast this

/-! ## Materials (`constants.js`) -/

def MAT_AIR : ℕ := 0
def MAT_DIRT : ℕ := 1
def MAT_ROCK : ℕ := 2
def MAT_GRASS : ℕ := 3
def MAT_SAND : ℕ := 4
def MAT_BRICK : ℕ := 5
def MAT_LAVA : ℕ := 6
def MAT_SNOW : ℕ := 7

/-- The `MAT_RESISTANCE` table; `none` for ids outside the table (a JS property
read of an unknown key yields `undefined`). -/
def MAT_RESISTANCE (m : ℕ) : Option ℚ :=
  if m = MAT_AIR then some 0
  else if m = MAT_DIRT then some 1
  else if m = MAT_ROCK then some (5/2)
  else if m = MAT_GRASS then some (4/5)
  else if m = MAT_SAND then some (3/5)
  else if m = MAT_BRICK then some 2
  else if m = MAT_LAVA then some 0
  else if m = MAT_SNOW then some (2/5)
  else none

/-- The lookup `MAT_RESISTANCE[mat] || 1` in `destroyCircle`. -/
def resistanceOf (m : ℕ) : ℚ := jsOrQ (MAT_RESISTANCE m) 1

theorem resistanceOf_pos (m : ℕ) : 2/5 ≤ resistanceOf m := by
  unfold resistanceOf MAT_RESISTANCE jsOrQ
  split_ifs <;> norm_num

/-! ## The material grid (`Terrain`, `player.js`) -/

/-- The destructible terrain: a `width × height` material grid stored row-major
in a byte array (`this.data = new Uint8Array(width * height)`), plus the
`dirty` repaint flag.  The offscreen canvas machinery is cosmetic and omitted. -/
structure Terrain where
  width : ℕ
  height : ℕ
  data : ℕ → ℕ
  dirty : Bool

/-- Direct indexed access `this.data[y * this.width + x]` (no bounds check):
how `destroyCircle` reads and writes cells. -/
def Terrain.cell (t : Terrain) (x y : ℤ) : ℕ := t.data (y * t.width + x).toNat

/-- Source `Terrain.get`: `x|0`, `y|0`, out-of-bounds reads return `MAT.AIR`. -/
def Terrain.get (t : Terrain) (x y : ℤ) : ℕ :=
  let x := toInt32 x
  let y := toInt32 y
  if x < 0 ∨ (t.width : ℤ) ≤ x ∨ y < 0 ∨ (t.height : ℤ) ≤ y then MAT_AIR
  else t.cell x y

/-- Source `Terrain.set`: `x|0`, `y|0`, out-of-bounds writes return without touching
anything; in-bounds writes store `mat` (reduced mod 256 by the `Uint8Array`)
and set `dirty`. -/
def Terrain.set (t : Terrain) (x y : ℤ) (mat : ℕ) : Terrain :=
  let x := toInt32 x
  let y := toInt32 y
  if x < 0 ∨ (t.width : ℤ) ≤ x ∨ y < 0 ∨ (t.height : ℤ) ≤ y then t
  else { t with data := Function.update t.data (y * t.width + x).toNat (mat % 256),
                dirty := true }

/-- Source `Terrain.isSolid`: not air and not lava. -/
def Terrain.isSolid (t : Terrain) (x y : ℤ) : Bool :=
  let mat := t.get x y
  decide (mat ≠ MAT_AIR) && decide (mat ≠ MAT_LAVA)

/-- Source `Terrain.isLava`. -/
def Terrain.isLava (t : Terrain) (x y : ℤ) : Bool :=
  decide (t.get x y = MAT_LAVA)

/-- The index range of `for (let d = -r; d <= r; d++)` (empty when `r < 0`). -/
def loopRange (r : ℤ) : List ℤ :=
  (List.range (2 * r + 1).toNat).map (fun i : ℕ => ((i : ℤ) - r))

/-- The nested loop order of `destroyCircle`: `dy` outer, `dx` inner. -/
def discOffsets (r : ℤ) : List (ℤ × ℤ) :=
  (loopRange r).flatMap (fun dy => (loopRange r).map (fun dx => (dx, dy)))

theorem mem_loopRange (r a : ℤ) : a ∈ loopRange r ↔ -r ≤ a ∧ a ≤ r := by
  unfold loopRange
  simp only [List.mem_map, List.mem_range]
  constructor
  · rintro ⟨i, hi, rfl⟩; omega
  · rintro ⟨h1, h2⟩; exact ⟨(a + r).toNat, by omega, by omega⟩

theorem mem_discOffsets (r : ℤ) (od : ℤ × ℤ) :
    od ∈ discOffsets r ↔ (-r ≤ od.1 ∧ od.1 ≤ r) ∧ (-r ≤ od.2 ∧ od.2 ≤ r) := by
  unfold discOffsets
  rcases od with ⟨dx, dy⟩
  simp only [List.mem_flatMap, List.mem_map, Prod.mk.injEq]
  constructor
  · rintro ⟨dy', hdy, dx', hdx, rfl, rfl⟩
    exact ⟨(mem_loopRange r dx').mp hdx, (mem_loopRange r dy').mp hdy⟩
  · rintro ⟨h1, h2⟩
    exact ⟨dy, (mem_loopRange r dy).mpr h2, dx, (mem_loopRange r dx).mpr h1, rfl, rfl⟩

/-- The body of one `destroyCircle` loop iteration, as a predicate on the cell
offset `(dx, dy)` from the (pre-rounded) centre: inside the loop bounds
(`r = Math.ceil(radius)`), inside the disc (`dx*dx + dy*dy <= radius*radius`),
in bounds, not air, not lava, and `effectivePower >= resistance` where
`effectivePower = power * (1 - (sqrt(dx*dx+dy*dy)/radius) * 0.6)`.  The last
comparison is decided exactly by `geAddMulSqrt` after rewriting it as
`(power - resistance) + (-(0.6*power/radius)) * sqrt n ≥ 0`; when `radius = 0`
the source computes `0/0 = NaN`, and `NaN >= resistance` is false. -/
def destroysCell (t : Terrain) (cx cy : ℤ) (radius power : ℚ) (dx dy : ℤ) : Bool :=
  decide (-⌈radius⌉ ≤ dx) && decide (dx ≤ ⌈radius⌉) &&
  decide (-⌈radius⌉ ≤ dy) && decide (dy ≤ ⌈radius⌉) &&
  !decide (radius * radius < ((dx * dx + dy * dy : ℤ) : ℚ)) &&
  decide (0 ≤ cx + dx) && decide (cx + dx < (t.width : ℤ)) &&
  decide (0 ≤ cy + dy) && decide (cy + dy < (t.height : ℤ)) &&
  !decide (t.cell (cx + dx) (cy + dy) = MAT_AIR) &&
  !decide (t.cell (cx + dx) (cy + dy) = MAT_LAVA) &&
  (if radius = 0 then false
   else geAddMulSqrt (power - resistanceOf (t.cell (cx + dx) (cy + dy)))
     (-(3/5) * power / radius) ((dx * dx + dy * dy : ℤ) : ℚ))

/-- The body of `destroyCircle` after the centre has been rounded: every cell of the disc
whose iteration passes `destroysCell` is set to `MAT.AIR`; the destroyed count
is returned and `dirty` is set when it is positive. -/
def destroyCircleCore (t : Terrain) (cx cy : ℤ) (radius power : ℚ) : Terrain × ℕ :=
  let r : ℤ := ⌈radius⌉
  let destroyed := (discOffsets r).countP (fun od => destroysCell t cx cy radius power od.1 od.2)
  let newData : ℕ → ℕ := fun j =>
    let x : ℤ := ((j % t.width : ℕ) : ℤ)
    let y : ℤ := ((j / t.width : ℕ) : ℤ)
    if destroysCell t cx cy radius power (x - cx) (y - cy) then MAT_AIR else t.data j
  ({ t with data := newData, dirty := if 0 < destroyed then true else t.dirty }, destroyed)

/-- Source `Terrain.destroyCircle(cx, cy, radius, power)`: rounds the centre and runs
the destruction loop. -/
def Terrain.destroyCircle (t : Terrain) (cx cy radius power : ℚ) : Terrain × ℕ :=
  destroyCircleCore t (jsRound cx) (jsRound cy) radius power

/-- The call `destroyCircle` on a float-valued centre (as called from `_fireMelee` /
`_explode` with a projectile position). -/
noncomputable def Terrain.destroyCircleR (t : Terrain) (cx cy : ℝ) (radius power : ℚ) :
    Terrain × ℕ :=
  destroyCircleCore t (jsRoundR cx) (jsRoundR cy) radius power

/-! ### Pointwise behaviour of `destroyCircle` -/

theorem destroyCircleCore_cell (t : Terrain) (cx cy : ℤ) (radius power : ℚ)
    (px py : ℤ) (hx0 : 0 ≤ px) (hxw : px < (t.width : ℤ))
    (hy0 : 0 ≤ py) (hyh : py < (t.height : ℤ)) :
    (destroyCircleCore t cx cy radius power).1.cell px py =
      if destroysCell t cx cy radius power (px - cx) (py - cy) then MAT_AIR
      else t.cell px py := by
  obtain ⟨a, rfl⟩ : ∃ a : ℕ, px = (a : ℤ) := ⟨px.toNat, (Int.toNat_of_nonneg hx0).symm⟩
  obtain ⟨b, rfl⟩ : ∃ b : ℕ, py = (b : ℤ) := ⟨py.toNat, (Int.toNat_of_nonneg hy0).symm⟩
  have haw : a < t.width := by exact_mod_cast hxw
  have hw : 0 < t.width := Nat.pos_of_ne_zero (by omega)
  have hidx : ((b : ℤ) * (t.width : ℤ) + (a : ℤ)).toNat = b * t.width + a := by
    have h : (b : ℤ) * (t.width : ℤ) + (a : ℤ) = ((b * t.width + a : ℕ) : ℤ) := by push_cast; ring
    rw [h, Int.toNat_natCast]
  have hmod : (b * t.width + a) % t.width = a := by
    rw [mul_comm, Nat.mul_add_mod, Nat.mod_eq_of_lt haw]
  have hdiv : (b * t.width + a) / t.width = b := by
    rw [mul_comm, Nat.mul_add_div hw, Nat.div_eq_of_lt haw, Nat.add_zero]
  show (destroyCircleCore t cx cy radius power).1.data _ = _
  unfold destroyCircleCore
  simp only [Terrain.cell, hidx, hmod, hdiv]

theorem destroysCell_iff_real (t : Terrain) (cx cy : ℤ) (radius power : ℚ) (dx dy : ℤ)
    (hr : 0 < radius)
    (hdisc : ((dx * dx + dy * dy : ℤ) : ℚ) ≤ radius * radius)
    (hx0 : 0 ≤ cx + dx) (hxw : cx + dx < (t.width : ℤ))
    (hy0 : 0 ≤ cy + dy) (hyh : cy + dy < (t.height : ℤ)) :
    destroysCell t cx cy radius power dx dy = true ↔
      (t.cell (cx + dx) (cy + dy) ≠ MAT_AIR ∧ t.cell (cx + dx) (cy + dy) ≠ MAT_LAVA ∧
       (resistanceOf (t.cell (cx + dx) (cy + dy)) : ℝ) ≤
         (power : ℝ) *
           (1 - Real.sqrt (((dx * dx + dy * dy : ℤ) : ℚ) : ℝ) / (radius : ℝ) * (3/5))) := by
  have hn : (0 : ℚ) ≤ ((dx * dx + dy * dy : ℤ) : ℚ) := by
    have h : (0 : ℤ) ≤ dx * dx + dy * dy := by nlinarith [sq_nonneg dx, sq_nonneg dy]
    exact_mod_cast h
  -- the loop bounds `-⌈radius⌉ ≤ dx ≤ ⌈radius⌉` follow from membership in the disc
  have hdx2 : ((dx : ℚ)) ^ 2 ≤ radius ^ 2 := by
    push_cast at hdisc
    nlinarith [sq_nonneg ((dy : ℚ))]
  have hdy2 : ((dy : ℚ)) ^ 2 ≤ radius ^ 2 := by
    push_cast at hdisc
    nlinarith [sq_nonneg ((dx : ℚ))]
  have hdxb := abs_le_of_sq_le_sq' hdx2 hr.le
  have hdyb := abs_le_of_sq_le_sq' hdy2 hr.le
  have hceil : radius ≤ (⌈radius⌉ : ℚ) := Int.le_ceil radius
  have hdx1a : -⌈radius⌉ ≤ dx := by
    have h : -(⌈radius⌉ : ℚ) ≤ (dx : ℚ) := by linarith [hdxb.1]
    exact_mod_cast h
  have hdx1b : dx ≤ ⌈radius⌉ := by
    have h : (dx : ℚ) ≤ (⌈radius⌉ : ℚ) := by linarith [hdxb.2]
    exact_mod_cast h
  have hdy1a : -⌈radius⌉ ≤ dy := by
    have h : -(⌈radius⌉ : ℚ) ≤ (dy : ℚ) := by linarith [hdyb.1]
    exact_mod_cast h
  have hdy1b : dy ≤ ⌈radius⌉ := by
    have h : (dy : ℚ) ≤ (⌈radius⌉ : ℚ) := by linarith [hdyb.2]
    exact_mod_cast h
  have hr' : (0 : ℝ) < (radius : ℝ) := by exact_mod_cast hr
  have harith :
      (0 ≤ ((power - resistanceOf (t.cell (cx + dx) (cy + dy)) : ℚ) : ℝ) +
          ((-(3/5) * power / radius : ℚ) : ℝ) *
            Real.sqrt (((dx * dx + dy * dy : ℤ) : ℚ) : ℝ)) ↔
        ((resistanceOf (t.cell (cx + dx) (cy + dy)) : ℝ) ≤
          (power : ℝ) *
            (1 - Real.sqrt (((dx * dx + dy * dy : ℤ) : ℚ) : ℝ) / (radius : ℝ) * (3/5))) := by
    have key : ((power - resistanceOf (t.cell (cx + dx) (cy + dy)) : ℚ) : ℝ) +
        ((-(3/5) * power / radius : ℚ) : ℝ) * Real.sqrt (((dx * dx + dy * dy : ℤ) : ℚ) : ℝ)
        = (power : ℝ) *
            (1 - Real.sqrt (((dx * dx + dy * dy : ℤ) : ℚ) : ℝ) / (radius : ℝ) * (3/5)) -
          (resistanceOf (t.cell (cx + dx) (cy + dy)) : ℝ) := by
      push_cast
      field_simp
      ring
    rw [key]
    constructor <;> intro h <;> linarith
  have hnd : ¬ (radius * radius < ((dx * dx + dy * dy : ℤ) : ℚ)) := not_lt.mpr hdisc
  unfold destroysCell
  simp only [Bool.and_eq_true, Bool.not_eq_true', decide_eq_true_eq, decide_eq_false_iff_not,
    if_neg hr.ne']
  rw [geAddMulSqrt_iff _ _ _ hn, harith]
  constructor
  · tauto
  · tauto

theorem geAddMulSqrt_false_of_lt (power res radius n : ℚ) (hres : 0 < res)
    (hp : power < res) (hn : 0 ≤ n) (hdisc : n ≤ radius * radius) (hr : 0 < radius) :
    geAddMulSqrt (power - res) (-(3/5) * power / radius) n = false := by
  by_contra h
  rw [Bool.not_eq_false, geAddMulSqrt_iff _ _ _ hn] at h
  have hr' : (0 : ℝ) < (radius : ℝ) := by exact_mod_cast hr
  have hs : (0 : ℝ) ≤ Real.sqrt (n : ℝ) := Real.sqrt_nonneg _
  have hsle : Real.sqrt (n : ℝ) ≤ (radius : ℝ) := by
    rw [show ((radius : ℝ)) = Real.sqrt ((radius : ℝ) ^ 2) from (Real.sqrt_sq hr'.le).symm]
    apply Real.sqrt_le_sqrt
    have : (n : ℝ) ≤ (radius : ℝ) * (radius : ℝ) := by exact_mod_cast hdisc
    nlinarith
  have hcast : ((-(3/5) * power / radius : ℚ) : ℝ) = -(3/5) * (power : ℝ) / (radius : ℝ) := by
    push_cast; ring
  rw [hcast] at h
  push_cast at h
  have hres' : (0 : ℝ) < (res : ℝ) := by exact_mod_cast hres
  have hp' : (power : ℝ) < (res : ℝ) := by exact_mod_cast hp
  rcases le_or_lt 0 (power : ℝ) with hpw | hpw
  · have h1 : (0:ℝ) ≤ (power : ℝ) / (radius : ℝ) := by positivity
    have hterm : -(3/5) * (power : ℝ) / (radius : ℝ) * Real.sqrt (n : ℝ) ≤ 0 := by
      have h3 : -(3/5) * (power : ℝ) / (radius : ℝ) * Real.sqrt (n : ℝ)
          = -((3/5) * ((power : ℝ) / (radius : ℝ) * Real.sqrt (n : ℝ))) := by ring
      rw [h3]
      have h4 := mul_nonneg h1 hs
      linarith
    linarith
  · have h1 : (0:ℝ) ≤ -(power : ℝ) := by linarith
    have h2 : (0:ℝ) ≤ ((radius : ℝ))⁻¹ := by positivity
    have hcoef : (0 : ℝ) ≤ -(3/5) * (power : ℝ) / (radius : ℝ) := by
      have h3 : -(3/5) * (power : ℝ) / (radius : ℝ)
          = (3/5) * (-(power : ℝ) * ((radius : ℝ))⁻¹) := by ring
      rw [h3]
      have h4 := mul_nonneg h1 h2
      linarith
    have hterm : -(3/5) * (power : ℝ) / (radius : ℝ) * Real.sqrt (n : ℝ) ≤
        -(3/5) * (power : ℝ) / (radius : ℝ) * (radius : ℝ) :=
      mul_le_mul_of_nonneg_left hsle hcoef
    have heq : -(3/5) * (power : ℝ) / (radius : ℝ) * (radius : ℝ) = -(3/5) * (power : ℝ) := by
      field_simp
      ring
    rw [heq] at hterm
    linarith

theorem geAddMulSqrt_false_at_zero (power res b : ℚ) (hp : power < res) :
    geAddMulSqrt (power - res) b 0 = false := by
  have ha : ¬ (0 ≤ power - res) := by linarith
  have hlt : power - res < 0 := by linarith
  have hsq : 0 < (power - res) ^ 2 := by
    rw [sq]
    exact mul_pos_of_neg_of_neg hlt hlt
  unfold geAddMulSqrt
  split_ifs <;> simp [ha, mul_zero, not_le, hsq]

/-- If the power is below the resistance of every non-air, non-lava cell that
the loop can reach, no cell passes the destruction test. -/
theorem destroysCell_false_of_lowPower (t : Terrain) (cx cy : ℤ) (radius power : ℚ)
    (H : ∀ dx dy : ℤ, -⌈radius⌉ ≤ dx → dx ≤ ⌈radius⌉ → -⌈radius⌉ ≤ dy → dy ≤ ⌈radius⌉ →
      ((dx * dx + dy * dy : ℤ) : ℚ) ≤ radius * radius →
      0 ≤ cx + dx → cx + dx < (t.width : ℤ) → 0 ≤ cy + dy → cy + dy < (t.height : ℤ) →
      t.cell (cx + dx) (cy + dy) ≠ MAT_AIR → t.cell (cx + dx) (cy + dy) ≠ MAT_LAVA →
      power < resistanceOf (t.cell (cx + dx) (cy + dy))) :
    ∀ dx dy : ℤ, destroysCell t cx cy radius power dx dy = false := by
  intro dx dy
  by_contra hcon
  rw [Bool.not_eq_false] at hcon
  unfold destroysCell at hcon
  simp only [Bool.and_eq_true, Bool.not_eq_true', decide_eq_true_eq,
    decide_eq_false_iff_not] at hcon
  obtain ⟨⟨⟨⟨⟨⟨⟨⟨⟨⟨⟨hdxa, hdxb⟩, hdya⟩, hdyb⟩, hndisc⟩, hx0⟩, hxw⟩, hy0⟩, hyh⟩, hair⟩,
    hlava⟩, htest⟩ := hcon
  have hdisc : ((dx * dx + dy * dy : ℤ) : ℚ) ≤ radius * radius := not_lt.mp hndisc
  have hn : (0 : ℚ) ≤ ((dx * dx + dy * dy : ℤ) : ℚ) := by
    have h : (0 : ℤ) ≤ dx * dx + dy * dy := by nlinarith [sq_nonneg dx, sq_nonneg dy]
    exact_mod_cast h
  have hp := H dx dy hdxa hdxb hdya hdyb hdisc hx0 hxw hy0 hyh hair hlava
  have hres : 0 < resistanceOf (t.cell (cx + dx) (cy + dy)) :=
    lt_of_lt_of_le (by norm_num) (resistanceOf_pos _)
  rcases lt_trichotomy radius 0 with hrlt | hr0 | hrgt
  · -- a negative radius reaches only the centre offset, whose radicand is zero
    have hceil : ⌈radius⌉ ≤ 0 := Int.ceil_le.mpr (by exact_mod_cast hrlt.le)
    have hdx0 : dx = 0 := by omega
    have hdy0 : dy = 0 := by omega
    subst hdx0 hdy0
    rw [if_neg hrlt.ne] at htest
    simp only [show ((0 * 0 + 0 * 0 : ℤ) : ℚ) = 0 by norm_num] at htest
    rw [geAddMulSqrt_false_at_zero _ _ _ hp] at htest
    exact Bool.false_ne_true htest
  · rw [if_pos hr0] at htest
    exact Bool.false_ne_true htest
  · rw [if_neg hrgt.ne'] at htest
    rw [geAddMulSqrt_false_of_lt _ _ _ _ hres hp hn hdisc hrgt] at htest
    exact Bool.false_ne_true htest

theorem destroysCell_not_air_lava (t : Terrain) (cx cy : ℤ) (radius power : ℚ) (dx dy : ℤ)
    (h : destroysCell t cx cy radius power dx dy = true) :
    t.cell (cx + dx) (cy + dy) ≠ MAT_AIR ∧ t.cell (cx + dx) (cy + dy) ≠ MAT_LAVA := by
  unfold destroysCell at h
  simp only [Bool.and_eq_true, Bool.not_eq_true', decide_eq_true_eq,
    decide_eq_false_iff_not] at h
  tauto

theorem destroysCell_bounds (t : Terrain) (cx cy : ℤ) (radius power : ℚ) (dx dy : ℤ)
    (h : destroysCell t cx cy radius power dx dy = true) :
    0 ≤ cx + dx ∧ cx + dx < (t.width : ℤ) ∧ 0 ≤ cy + dy ∧ cy + dy < (t.height : ℤ) := by
  unfold destroysCell at h
  simp only [Bool.and_eq_true, Bool.not_eq_true', decide_eq_true_eq,
    decide_eq_false_iff_not] at h
  tauto

/-- Claim C1: for every call `destroyCircle(cx, cy, radius, power)` (with a
positive radius), a grid cell at integer offset `(dx, dy)` from the rounded
centre with `dx*dx + dy*dy ≤ radius*radius` and in bounds is set to Air iff it
is not already Air, is not Lava, and
`power * (1 - 0.6 * f) ≥ its material's resistance` where
`f = sqrt(dx*dx + dy*dy) / radius`; Lava cells are never converted to Air for
any power, cells already Air are skipped, and the returned `destroyedCount`
equals the number of cells so cleared. -/
theorem claim_C1_destroyCircle (t : Terrain) (cx0 cy0 radius power : ℚ) (hr : 0 < radius) :
    (∀ dx dy : ℤ,
      ((dx * dx + dy * dy : ℤ) : ℚ) ≤ radius * radius →
      0 ≤ jsRound cx0 + dx → jsRound cx0 + dx < (t.width : ℤ) →
      0 ≤ jsRound cy0 + dy → jsRound cy0 + dy < (t.height : ℤ) →
      (((t.destroyCircle cx0 cy0 radius power).1.cell (jsRound cx0 + dx) (jsRound cy0 + dy)
            = MAT_AIR ∧
        t.cell (jsRound cx0 + dx) (jsRound cy0 + dy) ≠ MAT_AIR) ↔
        (t.cell (jsRound cx0 + dx) (jsRound cy0 + dy) ≠ MAT_AIR ∧
         t.cell (jsRound cx0 + dx) (jsRound cy0 + dy) ≠ MAT_LAVA ∧
         (resistanceOf (t.cell (jsRound cx0 + dx) (jsRound cy0 + dy)) : ℝ) ≤
           (power : ℝ) *
             (1 - Real.sqrt (((dx * dx + dy * dy : ℤ) : ℚ) : ℝ) / (radius : ℝ) * (3/5))))) ∧
    (∀ px py : ℤ, 0 ≤ px → px < (t.width : ℤ) → 0 ≤ py → py < (t.height : ℤ) →
      (t.cell px py = MAT_LAVA →
        (t.destroyCircle cx0 cy0 radius power).1.cell px py = MAT_LAVA) ∧
      (t.cell px py = MAT_AIR →
        (t.destroyCircle cx0 cy0 radius power).1.cell px py = MAT_AIR)) ∧
    (t.destroyCircle cx0 cy0 radius power).2 =
      (discOffsets ⌈radius⌉).countP (fun od =>
        decide (0 ≤ jsRound cx0 + od.1) && decide (jsRound cx0 + od.1 < (t.width : ℤ)) &&
        decide (0 ≤ jsRound cy0 + od.2) && decide (jsRound cy0 + od.2 < (t.height : ℤ)) &&
        decide ((t.destroyCircle cx0 cy0 radius power).1.cell
            (jsRound cx0 + od.1) (jsRound cy0 + od.2) ≠
          t.cell (jsRound cx0 + od.1) (jsRound cy0 + od.2))) := by
  refine ⟨?_, ?_, ?_⟩
  · intro dx dy hdisc hx0 hxw hy0 hyh
    have hcell := destroyCircleCore_cell t (jsRound cx0) (jsRound cy0) radius power
      (jsRound cx0 + dx) (jsRound cy0 + dy) hx0 hxw hy0 hyh
    have e1 : jsRound cx0 + dx - jsRound cx0 = dx := by ring
    have e2 : jsRound cy0 + dy - jsRound cy0 = dy := by ring
    rw [e1, e2] at hcell
    have hiff := destroysCell_iff_real t (jsRound cx0) (jsRound cy0) radius power dx dy hr
      hdisc hx0 hxw hy0 hyh
    by_cases hB : destroysCell t (jsRound cx0) (jsRound cy0) radius power dx dy = true
    · constructor
      · rintro ⟨-, -⟩
        exact hiff.mp hB
      · intro hR
        refine ⟨?_, hR.1⟩
        show (t.destroyCircle cx0 cy0 radius power).1.cell _ _ = MAT_AIR
        rw [show (t.destroyCircle cx0 cy0 radius power).1
              = (destroyCircleCore t (jsRound cx0) (jsRound cy0) radius power).1 from rfl,
          hcell, if_pos hB]
    · have hBf : destroysCell t (jsRound cx0) (jsRound cy0) radius power dx dy = false :=
        Bool.eq_false_iff.mpr hB
      constructor
      · rintro ⟨hnew, hold⟩
        exfalso
        rw [show (t.destroyCircle cx0 cy0 radius power).1
              = (destroyCircleCore t (jsRound cx0) (jsRound cy0) radius power).1 from rfl,
          hcell, if_neg hB] at hnew
        exact hold hnew
      · intro hR
        exact absurd (hiff.mpr hR) hB
  · intro px py hx0 hxw hy0 hyh
    have hcell := destroyCircleCore_cell t (jsRound cx0) (jsRound cy0) radius power
      px py hx0 hxw hy0 hyh
    have e1 : jsRound cx0 + (px - jsRound cx0) = px := by ring
    have e2 : jsRound cy0 + (py - jsRound cy0) = py := by ring
    constructor
    · intro hl
      by_cases hB : destroysCell t (jsRound cx0) (jsRound cy0) radius power
          (px - jsRound cx0) (py - jsRound cy0) = true
      · have := (destroysCell_not_air_lava t _ _ _ _ _ _ hB).2
        rw [e1, e2] at this
        exact absurd hl this
      · show (t.destroyCircle cx0 cy0 radius power).1.cell px py = MAT_LAVA
        rw [show (t.destroyCircle cx0 cy0 radius power).1
              = (destroyCircleCore t (jsRound cx0) (jsRound cy0) radius power).1 from rfl,
          hcell, if_neg hB]
        exact hl
    · intro hl
      by_cases hB : destroysCell t (jsRound cx0) (jsRound cy0) radius power
          (px - jsRound cx0) (py - jsRound cy0) = true
      · have := (destroysCell_not_air_lava t _ _ _ _ _ _ hB).1
        rw [e1, e2] at this
        exact absurd hl this
      · show (t.destroyCircle cx0 cy0 radius power).1.cell px py = MAT_AIR
        rw [show (t.destroyCircle cx0 cy0 radius power).1
              = (destroyCircleCore t (jsRound cx0) (jsRound cy0) radius power).1 from rfl,
          hcell, if_neg hB]
        exact hl
  · show (discOffsets ⌈radius⌉).countP
        (fun od => destroysCell t (jsRound cx0) (jsRound cy0) radius power od.1 od.2) = _
    apply List.countP_congr
    rintro ⟨dx, dy⟩ hmem
    simp only
    constructor
    · intro hB
      obtain ⟨hx0, hxw, hy0, hyh⟩ := destroysCell_bounds t _ _ _ _ _ _ hB
      have hcell := destroyCircleCore_cell t (jsRound cx0) (jsRound cy0) radius power
        (jsRound cx0 + dx) (jsRound cy0 + dy) hx0 hxw hy0 hyh
      have e1 : jsRound cx0 + dx - jsRound cx0 = dx := by ring
      have e2 : jsRound cy0 + dy - jsRound cy0 = dy := by ring
      rw [e1, e2] at hcell
      have hold := (destroysCell_not_air_lava t _ _ _ _ _ _ hB).1
      have hnew : (t.destroyCircle cx0 cy0 radius power).1.cell
          (jsRound cx0 + dx) (jsRound cy0 + dy) = MAT_AIR := by
        rw [show (t.destroyCircle cx0 cy0 radius power).1
              = (destroyCircleCore t (jsRound cx0) (jsRound cy0) radius power).1 from rfl,
          hcell, if_pos hB]
      simp only [Bool.and_eq_true, decide_eq_true_eq]
      refine ⟨⟨⟨⟨hx0, hxw⟩, hy0⟩, hyh⟩, ?_⟩
      rw [hnew]
      exact fun h => hold h.symm
    · intro hR
      simp only [Bool.and_eq_true, decide_eq_true_eq] at hR
      obtain ⟨⟨⟨⟨hx0, hxw⟩, hy0⟩, hyh⟩, hch⟩ := hR
      by_contra hB
      have hcell := destroyCircleCore_cell t (jsRound cx0) (jsRound cy0) radius power
        (jsRound cx0 + dx) (jsRound cy0 + dy) hx0 hxw hy0 hyh
      have e1 : jsRound cx0 + dx - jsRound cx0 = dx := by ring
      have e2 : jsRound cy0 + dy - jsRound cy0 = dy := by ring
      rw [e1, e2] at hcell
      apply hch
      rw [show (t.destroyCircle cx0 cy0 radius power).1
            = (destroyCircleCore t (jsRound cx0) (jsRound cy0) radius power).1 from rfl,
        hcell, if_neg hB]

/-! ### Concrete grids for witnesses -/

/-- A 9×9 grid of Dirt. -/
def dirtGrid : Terrain := ⟨9, 9, fun _ => MAT_DIRT, false⟩

/-- An 11×11 grid of Rock. -/
def rockGrid : Terrain := ⟨11, 11, fun _ => MAT_ROCK, false⟩

/-- A 12×12 grid of Air. -/
def airGrid : Terrain := ⟨12, 12, fun _ => MAT_AIR, false⟩

/-- An all-Air grid with the match dimensions (`WORLD_WIDTH × WORLD_HEIGHT`). -/
def matchGrid : Terrain := ⟨1200, 700, fun _ => MAT_AIR, false⟩

/-- Row-major flat indices of in-bounds cells are injective. -/
theorem rowMajor_inj (w : ℕ) (px py qx qy : ℤ)
    (hpx : 0 ≤ px) (hpxw : px < (w : ℤ)) (hqx : 0 ≤ qx) (hqxw : qx < (w : ℤ))
    (hpy : 0 ≤ py) (hqy : 0 ≤ qy)
    (h : (py * (w : ℤ) + px).toNat = (qy * (w : ℤ) + qx).toNat) : px = qx ∧ py = qy := by
  have hw : (0 : ℤ) < (w : ℤ) := lt_of_le_of_lt hpx hpxw
  have h1 : 0 ≤ py * (w : ℤ) + px := by
    have := mul_nonneg hpy hw.le
    omega
  have h2 : 0 ≤ qy * (w : ℤ) + qx := by
    have := mul_nonneg hqy hw.le
    omega
  have h' : py * (w : ℤ) + px = qy * (w : ℤ) + qx := by omega
  have hd : (py - qy) * (w : ℤ) = qx - px := by linarith [h'.le, h'.ge, sub_mul py qy (w : ℤ)]
  have hy : py = qy := by
    rcases lt_trichotomy py qy with hlt | heq | hgt
    · exfalso
      have hle : py - qy ≤ -1 := by omega
      have := mul_le_mul_of_nonneg_right hle hw.le
      rw [hd] at this
      omega
    · exact heq
    · exfalso
      have hle : 1 ≤ py - qy := by omega
      have := mul_le_mul_of_nonneg_right hle hw.le
      rw [hd] at this
      omega
  refine ⟨?_, hy⟩
  rw [hy] at h'
  omega

/-- Claim C10 (amended): `Terrain.set(x, y, mat)` first applies the JS `|0`
int32 conversion to the coordinates; when the converted coordinates are
outside the grid it is a silent no-op (every cell and the `dirty` flag are
unchanged), and when they are in bounds it writes `mat` (a byte-sized material
id) to exactly that cell, leaves every other cell unchanged, and sets `dirty`
to `true` — so no out-of-range array index is ever written. -/
theorem claim_C10_set (t : Terrain) (x y : ℤ) (mat : ℕ) :
    (¬(0 ≤ toInt32 x ∧ toInt32 x < (t.width : ℤ) ∧
       0 ≤ toInt32 y ∧ toInt32 y < (t.height : ℤ)) →
      t.set x y mat = t) ∧
    ((0 ≤ toInt32 x ∧ toInt32 x < (t.width : ℤ) ∧
      0 ≤ toInt32 y ∧ toInt32 y < (t.height : ℤ)) → mat < 256 →
      (t.set x y mat).cell (toInt32 x) (toInt32 y) = mat ∧
      (t.set x y mat).dirty = true ∧
      (∀ px py : ℤ, 0 ≤ px → px < (t.width : ℤ) → 0 ≤ py → py < (t.height : ℤ) →
        ¬(px = toInt32 x ∧ py = toInt32 y) →
        (t.set x y mat).cell px py = t.cell px py)) := by
  constructor
  · intro h
    unfold Terrain.set
    rw [if_pos (by omega)]
  · rintro ⟨hx0, hxw, hy0, hyh⟩ hmat
    have hcond : ¬(toInt32 x < 0 ∨ (t.width : ℤ) ≤ toInt32 x ∨
        toInt32 y < 0 ∨ (t.height : ℤ) ≤ toInt32 y) := by omega
    refine ⟨?_, ?_, ?_⟩
    · show (t.set x y mat).data _ = mat
      unfold Terrain.set
      rw [if_neg hcond]
      simp only [Terrain.cell, Function.update_same]
      exact Nat.mod_eq_of_lt hmat
    · show (t.set x y mat).dirty = true
      unfold Terrain.set
      rw [if_neg hcond]
    · intro px py hpx hpxw hpy hpyh hne
      show (t.set x y mat).data _ = t.data _
      unfold Terrain.set
      rw [if_neg hcond]
      simp only [Terrain.cell]
      apply Function.update_noteq
      intro hEq
      exact hne ⟨(rowMajor_inj t.width px py (toInt32 x) (toInt32 y)
          hpx hpxw hx0 hxw hpy hy0 hEq).1,
        (rowMajor_inj t.width px py (toInt32 x) (toInt32 y)
          hpx hpxw hx0 hxw hpy hy0 hEq).2⟩

/-- Counterexample for C10: the coordinate `x = 4294967301 = 2^32 + 5` is
outside the grid bounds, yet `set` is not a no-op there: the JS `x|0`
conversion folds it to `5`, so the cell `(5, 0)` is overwritten and the dirty
flag is raised. -/
theorem claim_C10_counterexample :
    (1200 : ℤ) ≤ 4294967301 ∧
    (matchGrid.set 4294967301 0 1).data 5 = 1 ∧
    matchGrid.data 5 = 0 ∧
    (matchGrid.set 4294967301 0 1).dirty = true := by
  refine ⟨by norm_num, by decide, rfl, by decide⟩

/-- Witness for C10: a write at `(-5, 3)` is a silent no-op, and an in-bounds
write at `(3, 2)` stores the material and raises `dirty`. -/
theorem claim_C10_witness :
    (matchGrid.set (-5) 3 1 = matchGrid) ∧
    ((matchGrid.set 3 2 5).cell 3 2 = 5 ∧ (matchGrid.set 3 2 5).dirty = true) := by
  constructor
  · exact (claim_C10_set matchGrid (-5) 3 1).1 (by decide)
  · have h := (claim_C10_set matchGrid 3 2 5).2 (by decide) (by norm_num)
    exact ⟨h.1, h.2.1⟩

theorem destroysCell_loopDisc (t : Terrain) (cx cy : ℤ) (radius power : ℚ) (dx dy : ℤ)
    (h : destroysCell t cx cy radius power dx dy = true) :
    (-⌈radius⌉ ≤ dx ∧ dx ≤ ⌈radius⌉ ∧ -⌈radius⌉ ≤ dy ∧ dy ≤ ⌈radius⌉) ∧
    ((dx * dx + dy * dy : ℤ) : ℚ) ≤ radius * radius := by
  unfold destroysCell at h
  simp only [Bool.and_eq_true, Bool.not_eq_true', decide_eq_true_eq,
    decide_eq_false_iff_not] at h
  refine ⟨⟨?_, ?_, ?_, ?_⟩, not_lt.mp ?_⟩ <;> tauto

/-- Claim C8: `destroyCircle(cx, cy, r, power)` destroys 0 cells and leaves
every grid cell unchanged when `power` is strictly less than the minimum
material resistance over the affected disc; in particular, a second
`destroyCircle` call over a disc whose cells are already all Air returns
`destroyedCount = 0`. -/
theorem claim_C8_noop (t : Terrain) (cx0 cy0 radius power : ℚ) :
    ((∀ dx dy : ℤ, -⌈radius⌉ ≤ dx → dx ≤ ⌈radius⌉ → -⌈radius⌉ ≤ dy → dy ≤ ⌈radius⌉ →
        ((dx * dx + dy * dy : ℤ) : ℚ) ≤ radius * radius →
        0 ≤ jsRound cx0 + dx → jsRound cx0 + dx < (t.width : ℤ) →
        0 ≤ jsRound cy0 + dy → jsRound cy0 + dy < (t.height : ℤ) →
        t.cell (jsRound cx0 + dx) (jsRound cy0 + dy) ≠ MAT_AIR →
        t.cell (jsRound cx0 + dx) (jsRound cy0 + dy) ≠ MAT_LAVA →
        power < resistanceOf (t.cell (jsRound cx0 + dx) (jsRound cy0 + dy))) →
      ((t.destroyCircle cx0 cy0 radius power).2 = 0 ∧
       (∀ j : ℕ, (t.destroyCircle cx0 cy0 radius power).1.data j = t.data j) ∧
       (t.destroyCircle cx0 cy0 radius power).1.dirty = t.dirty)) ∧
    ((∀ dx dy : ℤ, -⌈radius⌉ ≤ dx → dx ≤ ⌈radius⌉ → -⌈radius⌉ ≤ dy → dy ≤ ⌈radius⌉ →
        ((dx * dx + dy * dy : ℤ) : ℚ) ≤ radius * radius →
        0 ≤ jsRound cx0 + dx → jsRound cx0 + dx < (t.width : ℤ) →
        0 ≤ jsRound cy0 + dy → jsRound cy0 + dy < (t.height : ℤ) →
        t.cell (jsRound cx0 + dx) (jsRound cy0 + dy) = MAT_AIR) →
      (t.destroyCircle cx0 cy0 radius power).2 = 0) := by
  constructor
  · intro H
    have hfalse : ∀ dx dy : ℤ,
        destroysCell t (jsRound cx0) (jsRound cy0) radius power dx dy = false := by
      apply destroysCell_false_of_lowPower
      intro dx dy h1 h2 h3 h4 h5 h6 h7 h8 h9 h10 h11
      exact H dx dy h1 h2 h3 h4 h5 h6 h7 h8 h9 h10 h11
    have hcount : (t.destroyCircle cx0 cy0 radius power).2 = 0 := by
      show (discOffsets ⌈radius⌉).countP
          (fun od => destroysCell t (jsRound cx0) (jsRound cy0) radius power od.1 od.2) = 0
      apply List.countP_eq_zero.mpr
      intro od _
      simp [hfalse od.1 od.2]
    refine ⟨hcount, ?_, ?_⟩
    · intro j
      show (if destroysCell t (jsRound cx0) (jsRound cy0) radius power _ _
          then MAT_AIR else t.data j) = t.data j
      rw [if_neg (by simp [hfalse])]
    · have hcount' : (discOffsets ⌈radius⌉).countP
          (fun od => destroysCell t (jsRound cx0) (jsRound cy0) radius power od.1 od.2) = 0 :=
        hcount
      show (if 0 < (discOffsets ⌈radius⌉).countP
          (fun od => destroysCell t (jsRound cx0) (jsRound cy0) radius power od.1 od.2)
          then true else t.dirty) = t.dirty
      rw [if_neg (by omega)]
  · intro H
    have hfalse : ∀ dx dy : ℤ,
        destroysCell t (jsRound cx0) (jsRound cy0) radius power dx dy = false := by
      intro dx dy
      by_contra hcon
      rw [Bool.not_eq_false] at hcon
      obtain ⟨⟨hl1, hl2, hl3, hl4⟩, hdisc⟩ := destroysCell_loopDisc t _ _ _ _ _ _ hcon
      obtain ⟨hb1, hb2, hb3, hb4⟩ := destroysCell_bounds t _ _ _ _ _ _ hcon
      have hair := (destroysCell_not_air_lava t _ _ _ _ _ _ hcon).1
      exact hair (H dx dy hl1 hl2 hl3 hl4 hdisc hb1 hb2 hb3 hb4)
    show (discOffsets ⌈radius⌉).countP
        (fun od => destroysCell t (jsRound cx0) (jsRound cy0) radius power od.1 od.2) = 0
    apply List.countP_eq_zero.mpr
    intro od _
    simp [hfalse od.1 od.2]

/-- Witness for C8: on an all-Air grid both parts of the claim apply — a blast
with huge power still destroys nothing, and so does a blast with tiny power. -/
theorem claim_C8_witness :
    (airGrid.destroyCircle 6 6 2 100).2 = 0 ∧
    (airGrid.destroyCircle 6 6 3 (1/10)).2 = 0 ∧
    (∀ j : ℕ, (airGrid.destroyCircle 6 6 3 (1/10)).1.data j = airGrid.data j) := by
  refine ⟨?_, ?_, ?_⟩
  · exact (claim_C8_noop airGrid 6 6 2 100).2
      (fun dx dy _ _ _ _ _ _ _ _ _ => rfl)
  · exact ((claim_C8_noop airGrid 6 6 3 (1/10)).1
      (fun dx dy _ _ _ _ _ _ _ _ _ hair _ => absurd rfl hair)).1
  · exact ((claim_C8_noop airGrid 6 6 3 (1/10)).1
      (fun dx dy _ _ _ _ _ _ _ _ _ hair _ => absurd rfl hair)).2.1

/-- Claim C4 (amended): for a Rock cell (resistance 2.5) under a
`destroyCircle` call with power 3, the effective power `3*(1 - 0.6*f)` falls
below 2.5 exactly once the normalized distance `f` exceeds `5/18 ≈ 0.278` (not
`0.44`): every Rock cell in the disc with `f ≤ 5/18` is cleared and every Rock
cell with `f > 5/18` survives. -/
theorem claim_C4_rock_threshold (t : Terrain) (cx0 cy0 radius : ℚ) (hr : 0 < radius)
    (dx dy : ℤ) (hdisc : ((dx * dx + dy * dy : ℤ) : ℚ) ≤ radius * radius)
    (hx0 : 0 ≤ jsRound cx0 + dx) (hxw : jsRound cx0 + dx < (t.width : ℤ))
    (hy0 : 0 ≤ jsRound cy0 + dy) (hyh : jsRound cy0 + dy < (t.height : ℤ))
    (hrock : t.cell (jsRound cx0 + dx) (jsRound cy0 + dy) = MAT_ROCK) :
    ((t.destroyCircle cx0 cy0 radius 3).1.cell (jsRound cx0 + dx) (jsRound cy0 + dy)
        = MAT_AIR ↔
      Real.sqrt (((dx * dx + dy * dy : ℤ) : ℚ) : ℝ) / (radius : ℝ) ≤ 5/18) := by
  have hcell := destroyCircleCore_cell t (jsRound cx0) (jsRound cy0) radius 3
    (jsRound cx0 + dx) (jsRound cy0 + dy) hx0 hxw hy0 hyh
  have e1 : jsRound cx0 + dx - jsRound cx0 = dx := by ring
  have e2 : jsRound cy0 + dy - jsRound cy0 = dy := by ring
  rw [e1, e2] at hcell
  have hiff := destroysCell_iff_real t (jsRound cx0) (jsRound cy0) radius 3 dx dy hr
    hdisc hx0 hxw hy0 hyh
  rw [hrock] at hiff
  have hres : (resistanceOf MAT_ROCK : ℝ) = 5/2 := by norm_num [resistanceOf, MAT_RESISTANCE,
    MAT_ROCK, MAT_AIR, MAT_DIRT, jsOrQ]
  rw [hres] at hiff
  have hr' : (0 : ℝ) < (radius : ℝ) := by exact_mod_cast hr
  have harith : ((5:ℝ)/2 ≤ (3 : ℚ) *
      (1 - Real.sqrt (((dx * dx + dy * dy : ℤ) : ℚ) : ℝ) / (radius : ℝ) * (3/5))) ↔
      Real.sqrt (((dx * dx + dy * dy : ℤ) : ℚ) : ℝ) / (radius : ℝ) ≤ 5/18 := by
    push_cast
    constructor <;> intro h <;> nlinarith
  by_cases hB : destroysCell t (jsRound cx0) (jsRound cy0) radius 3 dx dy = true
  · have hpow := (hiff.mp hB).2.2
    rw [harith] at hpow
    constructor
    · intro _
      exact hpow
    · intro _
      show (t.destroyCircle cx0 cy0 radius 3).1.cell _ _ = MAT_AIR
      rw [show (t.destroyCircle cx0 cy0 radius 3).1
            = (destroyCircleCore t (jsRound cx0) (jsRound cy0) radius 3).1 from rfl,
        hcell, if_pos hB]
  · constructor
    · intro hnew
      exfalso
      rw [show (t.destroyCircle cx0 cy0 radius 3).1
            = (destroyCircleCore t (jsRound cx0) (jsRound cy0) radius 3).1 from rfl,
        hcell, if_neg hB, hrock] at hnew
      exact absurd hnew (by norm_num [MAT_ROCK, MAT_AIR])
    · intro hf
      exfalso
      apply hB
      apply hiff.mpr
      refine ⟨by norm_num [MAT_ROCK, MAT_AIR], by norm_num [MAT_ROCK, MAT_LAVA], ?_⟩
      rw [show ((3:ℚ):ℝ) = (3:ℝ) from by norm_num] at harith ⊢
      exact harith.mpr hf

/-- Counterexample for C4: in an all-Rock grid, `destroyCircle` at centre
(5,5), radius 5, power 3 leaves the Rock cell at offset (2,0) intact even
though its normalized distance `f = 2/5 = 0.4` satisfies `f ≤ 0.44` — the
claim's threshold `0.44` is wrong (`3*(1-0.6*0.4) = 2.28 < 2.5`). -/
theorem claim_C4_counterexample :
    ((2 * 2 + 0 * 0 : ℤ) : ℚ) ≤ 5 * 5 ∧
    Real.sqrt (((2 * 2 + 0 * 0 : ℤ) : ℚ) : ℝ) / 5 ≤ 44/100 ∧
    rockGrid.cell 7 5 = MAT_ROCK ∧
    (rockGrid.destroyCircle 5 5 5 3).1.cell 7 5 = MAT_ROCK := by
  have hsqrt : Real.sqrt (((2 * 2 + 0 * 0 : ℤ) : ℚ) : ℝ) = 2 := by
    rw [show (((2 * 2 + 0 * 0 : ℤ) : ℚ) : ℝ) = 2^2 by norm_num,
      Real.sqrt_sq (by norm_num : (0:ℝ) ≤ 2)]
  refine ⟨by norm_num, by rw [hsqrt]; norm_num, by decide, ?_⟩
  have hj : jsRound (5 : ℚ) = 5 := by norm_num [jsRound]
  have hiff := destroysCell_iff_real rockGrid 5 5 5 3 2 0 (by norm_num) (by norm_num)
    (by decide) (by decide) (by decide) (by decide)
  have hB : destroysCell rockGrid 5 5 5 3 2 0 = false := by
    rw [Bool.eq_false_iff]
    intro h
    have hpow := (hiff.mp h).2.2
    rw [hsqrt, show rockGrid.cell (5 + 2) (5 + 0) = MAT_ROCK from by decide] at hpow
    rw [show (resistanceOf MAT_ROCK : ℝ) = 5/2 from by
      norm_num [resistanceOf, MAT_RESISTANCE, MAT_ROCK, MAT_AIR, MAT_DIRT, jsOrQ]] at hpow
    norm_num at hpow
  have hcell := destroyCircleCore_cell rockGrid 5 5 5 3 7 5
    (by decide) (by decide) (by decide) (by decide)
  show (destroyCircleCore rockGrid (jsRound 5) (jsRound 5) 5 3).1.cell 7 5 = MAT_ROCK
  rw [hj, hcell, if_neg (by rw [show (7 - 5 : ℤ) = 2 from by decide,
    show (5 - 5 : ℤ) = 0 from by decide, hB]; exact Bool.false_ne_true)]
  decide

/-- Witness for C4 (amended): the Rock cell at offset (1,0) from the centre,
with `f = 1/5 ≤ 5/18`, is cleared. -/
theorem claim_C4_witness :
    rockGrid.cell 6 5 = MAT_ROCK ∧
    (rockGrid.destroyCircle 5 5 5 3).1.cell 6 5 = MAT_AIR := by
  refine ⟨by decide, ?_⟩
  have hj : jsRound (5 : ℚ) = 5 := by norm_num [jsRound]
  have h := claim_C4_rock_threshold rockGrid 5 5 5 (by norm_num) 1 0
  rw [hj] at h
  have h' := h (by norm_num) (by decide) (by decide) (by decide) (by decide) (by decide)
  apply h'.mpr
  have h1 : (((1 * 1 + 0 * 0 : ℤ) : ℚ) : ℝ) = 1 := by norm_num
  rw [h1, Real.sqrt_one]
  norm_num

/-- Witness for C1: in an all-Dirt grid (resistance 1), the in-disc cell at
offset (1,0) from the rounded centre (4,4) of a radius-2 power-3 blast meets
the claim's destruction condition and is indeed cleared to Air. -/
theorem claim_C1_witness :
    dirtGrid.cell 5 4 = MAT_DIRT ∧
    (dirtGrid.destroyCircle 4 4 2 3).1.cell 5 4 = MAT_AIR := by
  refine ⟨by decide, ?_⟩
  have hj : jsRound (4 : ℚ) = 4 := by norm_num [jsRound]
  have h := (claim_C1_destroyCircle dirtGrid 4 4 2 3 (by norm_num)).1 1 0
  rw [hj] at h
  have h' := h (by norm_num) (by decide) (by decide) (by decide) (by decide)
  have hres : (resistanceOf (dirtGrid.cell (4 + 1) (4 + 0)) : ℝ) = 1 := by
    rw [show dirtGrid.cell (4 + 1) (4 + 0) = MAT_DIRT from by decide]
    norm_num [resistanceOf, MAT_RESISTANCE, MAT_DIRT, MAT_AIR, jsOrQ]
  have hpow : (resistanceOf (dirtGrid.cell (4 + 1) (4 + 0)) : ℝ) ≤
      (3 : ℚ) * (1 - Real.sqrt (((1 * 1 + 0 * 0 : ℤ) : ℚ) : ℝ) / ((2 : ℚ) : ℝ) * (3/5)) := by
    rw [hres, show (((1 * 1 + 0 * 0 : ℤ) : ℚ) : ℝ) = 1 by norm_num, Real.sqrt_one]
    norm_num
  have hout := (h'.mpr ⟨by decide, by decide, hpow⟩).1
  exact hout

/-! ## Actors (`Player` contract, `player.js`) -/

/-- Squared distance, the radicand of `utils.dist`. -/
def dist2 (x1 y1 x2 y2 : ℚ) : ℚ :=
  (x2 - x1) * (x2 - x1) + (y2 - y1) * (y2 - y1)

theorem dist2_nonneg (x1 y1 x2 y2 : ℚ) : 0 ≤ dist2 x1 y1 x2 y2 := by
  unfold dist2
  nlinarith [sq_nonneg (x2 - x1), sq_nonneg (y2 - y1)]

/-- The actor contract implemented by `Player`: AABB position/size, velocity,
health, the `dead` flag, `onGround`, and the stable player index.  The field
`alive` records that the `Player` constructor never defines an `alive`
property: reading `p.alive` on a real player yields `undefined` (`none`). -/
structure Actor where
  x : ℚ
  y : ℚ
  width : ℚ
  height : ℚ
  vx : ℝ
  vy : ℝ
  health : ℝ
  dead : Bool
  onGround : Bool
  index : ℤ
  alive : Option Bool := none

/-- Getter `cx` — centre x. -/
def Actor.cx (p : Actor) : ℚ := p.x + p.width / 2

/-- Getter `cy` — centre y. -/
def Actor.cy (p : Actor) : ℚ := p.y + p.height / 2

/-- Source `Player.takeDamage(amount)`: no-op when dead; clamps health at 0 and sets
`dead` (the damage-flash timestamp is cosmetic and omitted). -/
noncomputable def Actor.takeDamage (p : Actor) (amount : ℝ) : Actor :=
  if p.dead then p
  else if p.health - amount ≤ 0 then { p with health := 0, dead := true }
  else { p with health := p.health - amount }

/-- Source `Player.applyKnockback(ex, ey, force, radius)`: no-op when dead, when the
centre distance exceeds `radius`, or when it is exactly 0 (guarding the
division); otherwise adds an impulse along the normalized offset with linear
falloff and a constant upward bias, and clears `onGround`. -/
noncomputable def Actor.applyKnockback (p : Actor) (ex ey force radius : ℚ) : Actor :=
  if p.dead then p
  else
    let dx : ℚ := p.cx - ex
    let dy : ℚ := p.cy - ey
    let d : ℝ := Real.sqrt ((dx * dx + dy * dy : ℚ) : ℝ)
    if (radius : ℝ) < d ∨ d = 0 then p
    else
      { p with
        vx := p.vx + (dx : ℝ) / d * (force : ℝ) * (1 - d / (radius : ℝ)),
        vy := p.vy + (dy : ℝ) / d * (force : ℝ) * (1 - d / (radius : ℝ)) - 2,
        onGround := false }

theorem applyKnockback_health (p : Actor) (ex ey force radius : ℚ) :
    (p.applyKnockback ex ey force radius).health = p.health := by
  simp only [Actor.applyKnockback]
  split_ifs <;> rfl

/-! ## Explosion events and the per-tick damage resolver (game loop) -/

/-- Weapon descriptor (`constants.js`).  Optional fields model JS properties
that only some weapons define; `clusterCount = 0` models an absent or zero
(falsy) `clusterCount`. -/
structure Weapon where
  damage : ℚ
  blastRadius : ℚ
  terrainDestruct : ℚ
  speed : ℚ := 0
  gravity : ℚ := 0
  knockback : ℚ
  pellets : ℕ := 1
  spread : ℚ := 0
  bounces : ℕ := 0
  fuseTime : ℚ := 0
  melee : Bool := false
  hitscan : Bool := false
  chargeable : Bool := false
  minSpeed : ℚ := 0
  maxSpeed : ℚ := 0
  maxRange : Option ℚ := none
  meleeRange : Option ℚ := none
  meleeArc : Option ℚ := none
  clusterCount : ℕ := 0
  clusterSpread : ℚ := 0
  subBlastRadius : Option ℚ := none
  subDamage : Option ℚ := none
  subTerrainDestruct : Option ℚ := none
  mineLifetime : Option ℚ := none
  mineProximity : Option ℚ := none

/-- One entry of `pendingExplosions`. -/
structure ExplosionEvent where
  x : ℚ
  y : ℚ
  weapon : Weapon
  ownerIndex : ℤ
  blastRadius : ℚ
  damage : ℚ
  knockback : ℚ
  directHitPlayerIdx : ℤ

/-- The damage one pending explosion deals to one actor in the game loop's
explosion processing: full `damage` on a direct hit, `damage * (1 - d/blastR)`
when `d < blastR`, nothing otherwise. -/
noncomputable def explosionDamageTo (e : ExplosionEvent) (p : Actor) : ℝ :=
  if e.directHitPlayerIdx = p.index ∨
      Real.sqrt ((dist2 e.x e.y p.cx p.cy : ℚ) : ℝ) < (e.blastRadius : ℝ) then
    (e.damage : ℝ) *
      (if e.directHitPlayerIdx = p.index then 1
       else 1 - Real.sqrt ((dist2 e.x e.y p.cx p.cy : ℚ) : ℝ) / (e.blastRadius : ℝ))
  else 0

/-- The game loop's per-actor explosion processing: skip dead actors; on a
direct hit or inside the blast radius apply `takeDamage` then
`applyKnockback` (damage numbers, hit sounds and particles are cosmetic and
omitted). -/
noncomputable def applyExplosionToActor (e : ExplosionEvent) (p : Actor) : Actor :=
  if p.dead then p
  else if e.directHitPlayerIdx = p.index ∨
      Real.sqrt ((dist2 e.x e.y p.cx p.cy : ℚ) : ℝ) < (e.blastRadius : ℝ) then
    (p.takeDamage (explosionDamageTo e p)).applyKnockback e.x e.y e.knockback e.blastRadius
  else p

/-- Claim C2: when one pending explosion event is processed against the live
actors, the actor whose index equals the event's `directHitPlayerIdx` takes
full damage `baseDamage` (falloff 1) regardless of its distance to the blast
centre; every other live actor takes `baseDamage * (1 - d/blastRadius)` iff
its centre distance `d` is strictly less than `blastRadius` — an actor at
exactly `d = blastRadius` takes zero blast damage and an actor at `d = 0`
takes full damage. -/
theorem claim_C2_explosion_damage (e : ExplosionEvent) (p : Actor) (hlive : p.dead = false) :
    (e.directHitPlayerIdx = p.index → explosionDamageTo e p = (e.damage : ℝ)) ∧
    (e.directHitPlayerIdx ≠ p.index →
      (Real.sqrt ((dist2 e.x e.y p.cx p.cy : ℚ) : ℝ) < (e.blastRadius : ℝ) →
        explosionDamageTo e p =
          (e.damage : ℝ) *
            (1 - Real.sqrt ((dist2 e.x e.y p.cx p.cy : ℚ) : ℝ) / (e.blastRadius : ℝ))) ∧
      ((e.blastRadius : ℝ) ≤ Real.sqrt ((dist2 e.x e.y p.cx p.cy : ℚ) : ℝ) →
        explosionDamageTo e p = 0) ∧
      (Real.sqrt ((dist2 e.x e.y p.cx p.cy : ℚ) : ℝ) = (e.blastRadius : ℝ) →
        explosionDamageTo e p = 0) ∧
      (dist2 e.x e.y p.cx p.cy = 0 → 0 < e.blastRadius →
        explosionDamageTo e p = (e.damage : ℝ))) ∧
    ((e.directHitPlayerIdx = p.index ∨
        Real.sqrt ((dist2 e.x e.y p.cx p.cy : ℚ) : ℝ) < (e.blastRadius : ℝ)) →
      (applyExplosionToActor e p).health = (p.takeDamage (explosionDamageTo e p)).health) := by
  refine ⟨?_, ?_, ?_⟩
  · intro hdir
    unfold explosionDamageTo
    rw [if_pos (Or.inl hdir), if_pos hdir, mul_one]
  · intro hdir
    refine ⟨?_, ?_, ?_, ?_⟩
    · intro hlt
      unfold explosionDamageTo
      rw [if_pos (Or.inr hlt), if_neg hdir]
    · intro hge
      unfold explosionDamageTo
      rw [if_neg]
      rintro (h | h)
      · exact hdir h
      · exact absurd h (not_lt.mpr hge)
    · intro heq
      unfold explosionDamageTo
      rw [if_neg]
      rintro (h | h)
      · exact hdir h
      · exact absurd h (not_lt.mpr heq.ge)
    · intro hd0 hbr
      have hs : Real.sqrt ((dist2 e.x e.y p.cx p.cy : ℚ) : ℝ) = 0 := by
        rw [hd0]
        simp [Real.sqrt_zero]
      have hbr' : (0 : ℝ) < (e.blastRadius : ℝ) := by exact_mod_cast hbr
      unfold explosionDamageTo
      rw [if_pos (Or.inr (by rw [hs]; exact hbr')), if_neg hdir, hs]
      simp
  · intro hhit
    unfold applyExplosionToActor
    rw [if_neg (by simp [hlive]), if_pos hhit, applyKnockback_health]

/-- Claim C9: for every actor and every `applyKnockback(ex, ey, force,
radius)` call, if the centre distance `d` is exactly 0 or greater than
`radius`, the actor's velocity and `onGround` flag are left unchanged — an
actor standing exactly at the blast centre receives no knockback (guarding
the division by `d`), even though the damage formula still grants it full
damage. -/
theorem claim_C9_knockback_guard (p : Actor) (ex ey force radius : ℚ) :
    ((Real.sqrt (((p.cx - ex) * (p.cx - ex) + (p.cy - ey) * (p.cy - ey) : ℚ) : ℝ) = 0 ∨
      (radius : ℝ) <
        Real.sqrt (((p.cx - ex) * (p.cx - ex) + (p.cy - ey) * (p.cy - ey) : ℚ) : ℝ)) →
      p.applyKnockback ex ey force radius = p) ∧
    (∀ e : ExplosionEvent, e.directHitPlayerIdx ≠ p.index →
      e.x = p.cx → e.y = p.cy → 0 < e.blastRadius →
      explosionDamageTo e p = (e.damage : ℝ)) := by
  constructor
  · intro h
    unfold Actor.applyKnockback
    by_cases hd : p.dead
    · rw [if_pos hd]
    · rw [if_neg hd, if_pos (Or.symm h)]
  · intro e hdir hx hy hbr
    have hd0 : dist2 e.x e.y p.cx p.cy = 0 := by
      rw [hx, hy]
      unfold dist2
      ring
    have hs : Real.sqrt ((dist2 e.x e.y p.cx p.cy : ℚ) : ℝ) = 0 := by
      rw [hd0]
      simp [Real.sqrt_zero]
    have hbr' : (0 : ℝ) < (e.blastRadius : ℝ) := by exact_mod_cast hbr
    unfold explosionDamageTo
    rw [if_pos (Or.inr (by rw [hs]; exact hbr')), if_neg hdir, hs]
    simp

/-! ## The projectile simulator (`weapons.js`) -/

def WORLD_WIDTH : ℚ := 1200
def WORLD_HEIGHT : ℚ := 700
def GRAVITY : ℚ := 35/100

/-- An in-flight projectile (`class Projectile`).  `distTravelled` is
real-valued because the source accumulates exact Euclidean step lengths. -/
structure Projectile where
  weapon : Weapon
  x : ℚ
  y : ℚ
  vx : ℚ
  vy : ℚ
  ownerIndex : ℤ
  alive : Bool := true
  age : ℚ := 0
  bounces : ℕ := 0
  distTravelled : ℝ := 0
  isSub : Bool := false
  isMine : Bool := false
  landed : Bool := false
  mineMode : Bool := false

/-- The `WeaponSystem`'s state: the terrain, the wrap flag, the live
projectile list, the pending explosion events, and the players array the Game
assigns (`weapons.players = this.players`).  Particles, audio and the
cosmetic hitscan tracers are omitted. -/
structure WSState where
  terrain : Terrain
  wrapScreen : Bool
  projectiles : List Projectile
  pendingExplosions : List ExplosionEvent
  players : List Actor

/-- Source `WeaponSystem._explode(p, directHitPlayerIdx)`: a cluster parent splits
into `clusterCount` submunitions (cosmetic pop omitted, no event, no terrain
damage); anything else produces a normal explosion with the sub-variant stats
when `isSub`, destroying terrain with power 3 and appending one event.  The
randomized scatter velocity of submunition `i`
(`(cos(ang)*spd, sin(ang)*spd - lift)` drawn from `Math.random`) is supplied
by the `scatter` oracle.  Returns the detonated projectile (`alive := false`)
and the updated state. -/
noncomputable def WSState.explode (s : WSState) (p : Projectile)
    (directHitPlayerIdx : ℤ) (scatter : ℕ → ℚ × ℚ) : Projectile × WSState :=
  if p.weapon.clusterCount ≠ 0 ∧ p.isSub = false then
    ({ p with alive := false },
     { s with projectiles := s.projectiles ++
        (List.range p.weapon.clusterCount).map (fun i =>
          { weapon := p.weapon, x := p.x, y := p.y,
            vx := (scatter i).1, vy := (scatter i).2,
            ownerIndex := p.ownerIndex, isSub := true, isMine := p.mineMode }) })
  else
    ({ p with alive := false },
     { s with
        terrain := (s.terrain.destroyCircle p.x p.y
          ((if p.isSub then jsOrQ p.weapon.subBlastRadius p.weapon.blastRadius
            else p.weapon.blastRadius) *
           (if p.isSub then jsOrQ p.weapon.subTerrainDestruct p.weapon.terrainDestruct
            else p.weapon.terrainDestruct)) 3).1,
        pendingExplosions := s.pendingExplosions ++
          [{ x := p.x, y := p.y, weapon := p.weapon, ownerIndex := p.ownerIndex,
             blastRadius := if p.isSub then jsOrQ p.weapon.subBlastRadius p.weapon.blastRadius
               else p.weapon.blastRadius,
             damage := if p.isSub then jsOrQ p.weapon.subDamage p.weapon.damage
               else p.weapon.damage,
             knockback := p.weapon.knockback * (if p.isSub then 3/5 else 1),
             directHitPlayerIdx := directHitPlayerIdx }] })

/-- The out-of-bounds / wrapping block of `WeaponSystem.update`: in wrap mode
the horizontal position wraps by one world width and only a vertical
excursion (`y < -400` or `y > height + 50`) culls; outside wrap mode any
excursion past the margins culls. -/
def applyBounds (wrap : Bool) (p : Projectile) : Projectile :=
  if wrap then
    let p1 := if p.x < 0 then { p with x := p.x + WORLD_WIDTH }
              else if WORLD_WIDTH < p.x then { p with x := p.x - WORLD_WIDTH }
              else p
    if p1.y < -400 ∨ WORLD_HEIGHT + 50 < p1.y then { p1 with alive := false } else p1
  else
    if p.x < -50 ∨ WORLD_WIDTH + 50 < p.x ∨ p.y < -200 ∨ WORLD_HEIGHT + 50 < p.y then
      { p with alive := false }
    else p

/-- Index of the first list element satisfying `pred` — the `for` loop's
first-match semantics in the mine proximity scan. -/
def findFirstIdx (pred : Actor → Bool) : List Actor → Option ℕ
  | [] => none
  | a :: rest => if pred a then some 0 else (findFirstIdx pred rest).map (· + 1)

theorem findFirstIdx_eq_none_iff (pred : Actor → Bool) (l : List Actor) :
    findFirstIdx pred l = none ↔ ∀ a ∈ l, pred a = false := by
  induction l with
  | nil => simp [findFirstIdx]
  | cons a rest ih =>
    by_cases h : pred a
    · simp [findFirstIdx, h]
    · simp [findFirstIdx, h, Option.map_eq_none', ih]

theorem findFirstIdx_some_exists (pred : Actor → Bool) (l : List Actor) (i : ℕ)
    (h : findFirstIdx pred l = some i) : ∃ a ∈ l, pred a = true := by
  induction l generalizing i with
  | nil => simp [findFirstIdx] at h
  | cons a rest ih =>
    by_cases hp : pred a
    · exact ⟨a, List.mem_cons_self a rest, hp⟩
    · rw [findFirstIdx, if_neg hp, Option.map_eq_some'] at h
      obtain ⟨j, hj, -⟩ := h
      obtain ⟨b, hbm, hbp⟩ := ih j hj
      exact ⟨b, List.mem_cons_of_mem _ hbm, hbp⟩

/-- The landed-mine branch of `WeaponSystem.update`: accumulate age,
force-detonate at `mineLifetime` (default 10000), otherwise detonate on the
first live actor within `mineProximity` (default 30) — including the owner —
else stay put. -/
noncomputable def updateLandedMine (s : WSState) (players : List Actor) (dt : ℚ)
    (scatter : ℕ → ℚ × ℚ) (p : Projectile) : Projectile × WSState :=
  let p1 := { p with age := p.age + dt }
  if jsOrQ p.weapon.mineLifetime 10000 ≤ p1.age then s.explode p1 (-1) scatter
  else
    match findFirstIdx (fun plr => !plr.dead &&
        ltSqrtQ (dist2 p.x p.y plr.cx plr.cy) (jsOrQ p.weapon.mineProximity 30)) players with
    | some pi => s.explode p1 (pi : ℤ) scatter
    | none => (p1, s)

/-- Exact `Math.ceil(Math.sqrt q)` for a rational radicand, used for the
ray-step count of `_checkTerrainCollision`. -/
def ceilSqrtQ (q : ℚ) : ℕ :=
  if h : 0 < q then
    Nat.find (p := fun n => q ≤ ((n : ℕ) : ℚ) ^ 2)
      ⟨⌈q⌉.toNat, by
        have hc : 0 < ⌈q⌉ := Int.ceil_pos.mpr h
        have h1 : (1 : ℚ) ≤ ((⌈q⌉.toNat : ℕ) : ℚ) := by
          have : (1 : ℤ) ≤ ⌈q⌉ := hc
          have h2 : (1 : ℕ) ≤ ⌈q⌉.toNat := by omega
          exact_mod_cast h2
        have h3 : q ≤ ((⌈q⌉.toNat : ℕ) : ℚ) := by
          have h4 : ((⌈q⌉.toNat : ℕ) : ℤ) = ⌈q⌉ := Int.toNat_of_nonneg hc.le
          have h5 : q ≤ ((⌈q⌉ : ℤ) : ℚ) := Int.le_ceil q
          rw [show (((⌈q⌉.toNat : ℕ) : ℚ)) = ((⌈q⌉ : ℤ) : ℚ) from by exact_mod_cast h4]
          exact h5
        nlinarith⟩
  else 0

/-- Source `WeaponSystem._checkTerrainCollision`: ray-step from the old to the new
position in `max(1, ceil(dist))` steps; the first solid sample is the
collision point. -/
def checkTerrainCollision (t : Terrain) (p : Projectile) (oldX oldY : ℚ) : Option (ℚ × ℚ) :=
  let steps : ℕ := max 1 (ceilSqrtQ (dist2 oldX oldY p.x p.y))
  (List.range steps).findSome? (fun k =>
    let frac : ℚ := ((k + 1 : ℕ) : ℚ) / (steps : ℚ)
    let sx := oldX + (p.x - oldX) * frac
    let sy := oldY + (p.y - oldY) * frac
    if t.isSolid (jsRound sx) (jsRound sy) then some (sx, sy) else none)

/-- Source `WeaponSystem._bounce`: increment the bounce count, reflect the velocity
component(s) facing solid terrain with restitution 0.6, and restore the
pre-step position. -/
def bounce (t : Terrain) (p : Projectile) (oldX oldY : ℚ) : Projectile :=
  let checkLeft := t.isSolid (jsRound (p.x - 2)) (jsRound p.y)
  let checkRight := t.isSolid (jsRound (p.x + 2)) (jsRound p.y)
  let checkUp := t.isSolid (jsRound p.x) (jsRound (p.y - 2))
  let checkDown := t.isSolid (jsRound p.x) (jsRound (p.y + 2))
  let p1 := { p with bounces := p.bounces + 1 }
  let p2 := if checkDown || checkUp then { p1 with vy := -p1.vy * (3/5) } else p1
  let p3 := if checkLeft || checkRight then { p2 with vx := -p2.vx * (3/5) } else p2
  { p3 with x := oldX, y := oldY }

/-- The player-collision loop of `update`: first index whose live actor's AABB
contains the projectile, skipping the owner during the 200 ms post-fire grace
window. -/
def findHitPlayer (p : Projectile) : ℕ → List Actor → Option ℕ
  | _, [] => none
  | i, plr :: rest =>
    if ¬((i : ℤ) = p.ownerIndex ∧ p.age < 200) ∧ plr.dead = false ∧
        plr.x ≤ p.x ∧ p.x ≤ plr.x + plr.width ∧ plr.y ≤ p.y ∧ p.y ≤ plr.y + plr.height
    then some i
    else findHitPlayer p (i + 1) rest

/-- One projectile's pass through `WeaponSystem.update(dt, players)`: landed
mines only age and scan for proximity; everything else integrates gravity and
position, accumulates distance, applies bounds/wrapping, the max-range cull,
the fuse, terrain collision (landing mines, bouncing, exploding), and the
player-collision test.  Trail particles are cosmetic and omitted. -/
noncomputable def updateProjectile (s : WSState) (players : List Actor) (dt : ℚ)
    (scatter : ℕ → ℚ × ℚ) (p : Projectile) : Projectile × WSState :=
  if p.isMine && p.landed then updateLandedMine s players dt scatter p
  else
    let dtFactor := dt / 16
    let oldX := p.x
    let oldY := p.y
    let p1 : Projectile := { p with
      vy := p.vy + p.weapon.gravity * GRAVITY * dtFactor * 10,
      x := p.x + p.vx * dtFactor,
      y := p.y + (p.vy + p.weapon.gravity * GRAVITY * dtFactor * 10) * dtFactor,
      age := p.age + dt,
      distTravelled := p.distTravelled +
        Real.sqrt ((dist2 p.x p.y (p.x + p.vx * dtFactor)
          (p.y + (p.vy + p.weapon.gravity * GRAVITY * dtFactor * 10) * dtFactor) : ℚ) : ℝ) }
    let p2 := applyBounds s.wrapScreen p1
    if p2.alive = false then (p2, s)
    else if jsTruthyQ p.weapon.maxRange = true ∧
        (jsOrQ p.weapon.maxRange 0 : ℝ) < p2.distTravelled then
      ({ p2 with alive := false }, s)
    else if 0 < p.weapon.fuseTime ∧ p.weapon.fuseTime ≤ p2.age then
      s.explode p2 (-1) scatter
    else
      match checkTerrainCollision s.terrain p2 oldX oldY with
      | some (sx, sy) =>
        if p2.isMine && p2.isSub then
          ({ p2 with x := sx, y := oldY, vx := 0, vy := 0, landed := true }, s)
        else if 0 < p2.weapon.bounces ∧ p2.bounces < p2.weapon.bounces then
          (bounce s.terrain { p2 with x := sx, y := sy } oldX oldY, s)
        else s.explode { p2 with x := sx, y := sy } (-1) scatter
      | none =>
        match findHitPlayer p2 0 players with
        | some pi => s.explode p2 (pi : ℤ) scatter
        | none => (p2, s)

theorem explode_fst (s : WSState) (p : Projectile) (idx : ℤ) (scatter : ℕ → ℚ × ℚ) :
    (s.explode p idx scatter).1 = { p with alive := false } := by
  unfold WSState.explode
  split_ifs <;> rfl

/-- Claim C5: a cluster parent's detonation appends exactly `clusterCount`
submunitions to the live list, each `isSub := true` with `isMine` inherited
from the parent's fire-time mine flag, and the split itself emits no
explosion event and destroys no terrain; a submunition's own detonation never
splits again — it produces a normal explosion using the sub-variant stats. -/
theorem claim_C5_cluster_split (s : WSState) (p : Projectile) (idx : ℤ)
    (scatter : ℕ → ℚ × ℚ) :
    (p.weapon.clusterCount ≠ 0 → p.isSub = false →
      ((∃ subs : List Projectile,
          (s.explode p idx scatter).2.projectiles = s.projectiles ++ subs ∧
          subs.length = p.weapon.clusterCount ∧
          ∀ q ∈ subs, q.isSub = true ∧ q.isMine = p.mineMode) ∧
       (s.explode p idx scatter).2.pendingExplosions = s.pendingExplosions ∧
       (s.explode p idx scatter).2.terrain = s.terrain ∧
       (s.explode p idx scatter).1.alive = false)) ∧
    (p.isSub = true →
      ((s.explode p idx scatter).2.projectiles = s.projectiles ∧
       (s.explode p idx scatter).2.pendingExplosions = s.pendingExplosions ++
         [{ x := p.x, y := p.y, weapon := p.weapon, ownerIndex := p.ownerIndex,
            blastRadius := jsOrQ p.weapon.subBlastRadius p.weapon.blastRadius,
            damage := jsOrQ p.weapon.subDamage p.weapon.damage,
            knockback := p.weapon.knockback * (3/5),
            directHitPlayerIdx := idx }] ∧
       (s.explode p idx scatter).2.terrain =
         (s.terrain.destroyCircle p.x p.y
           (jsOrQ p.weapon.subBlastRadius p.weapon.blastRadius *
            jsOrQ p.weapon.subTerrainDestruct p.weapon.terrainDestruct) 3).1)) := by
  constructor
  · intro hcc hsub
    have hcond : p.weapon.clusterCount ≠ 0 ∧ p.isSub = false := ⟨hcc, hsub⟩
    unfold WSState.explode
    rw [if_pos hcond]
    refine ⟨⟨_, rfl, ?_, ?_⟩, rfl, rfl, rfl⟩
    · rw [List.length_map, List.length_range]
    · intro q hq
      simp only [List.mem_map] at hq
      obtain ⟨i, -, rfl⟩ := hq
      exact ⟨rfl, rfl⟩
  · intro hsub
    have hcond : ¬(p.weapon.clusterCount ≠ 0 ∧ p.isSub = false) := by
      rintro ⟨-, h⟩
      rw [hsub] at h
      exact absurd h (by decide)
    unfold WSState.explode
    rw [if_neg hcond]
    refine ⟨rfl, ?_, ?_⟩
    · simp only [if_pos hsub]
    · simp only [if_pos hsub]

/-- Claim C6: a landed mine's position is unchanged by every update step; it
only accumulates age, force-detonates once its age reaches `mineLifetime`,
and otherwise detonates as soon as any live actor — including its owner, with
no self-immunity — has centre distance below `mineProximity`. -/
theorem claim_C6_landed_mine (s : WSState) (players : List Actor) (dt : ℚ)
    (scatter : ℕ → ℚ × ℚ) (p : Projectile)
    (hm : p.isMine = true) (hl : p.landed = true) :
    ((updateProjectile s players dt scatter p).1.x = p.x ∧
     (updateProjectile s players dt scatter p).1.y = p.y) ∧
    (jsOrQ p.weapon.mineLifetime 10000 ≤ p.age + dt →
      (updateProjectile s players dt scatter p).1.alive = false) ∧
    (p.age + dt < jsOrQ p.weapon.mineLifetime 10000 →
      ((∃ plr ∈ players, plr.dead = false ∧
          Real.sqrt ((dist2 p.x p.y plr.cx plr.cy : ℚ) : ℝ) <
            ((jsOrQ p.weapon.mineProximity 30 : ℚ) : ℝ)) →
        (updateProjectile s players dt scatter p).1.alive = false) ∧
      ((∀ plr ∈ players, plr.dead = false →
          ¬(Real.sqrt ((dist2 p.x p.y plr.cx plr.cy : ℚ) : ℝ) <
            ((jsOrQ p.weapon.mineProximity 30 : ℚ) : ℝ))) →
        (updateProjectile s players dt scatter p).1 = { p with age := p.age + dt } ∧
        (updateProjectile s players dt scatter p).2 = s)) := by
  have hcond : (p.isMine && p.landed) = true := by rw [hm, hl]; rfl
  have hred : updateProjectile s players dt scatter p
      = updateLandedMine s players dt scatter p := by
    unfold updateProjectile
    rw [if_pos hcond]
  rw [hred]
  unfold updateLandedMine
  by_cases htime : jsOrQ p.weapon.mineLifetime 10000 ≤ p.age + dt
  · rw [if_pos htime, explode_fst]
    exact ⟨⟨rfl, rfl⟩, fun _ => rfl, fun hlt => absurd htime (not_le.mpr hlt)⟩
  · rw [if_neg htime]
    rcases hfind : findFirstIdx (fun plr => !plr.dead &&
        ltSqrtQ (dist2 p.x p.y plr.cx plr.cy) (jsOrQ p.weapon.mineProximity 30)) players
      with _ | pi
    · refine ⟨⟨rfl, rfl⟩, fun h => absurd h htime, fun _ => ⟨?_, fun _ => ⟨rfl, rfl⟩⟩⟩
      intro hex
      exfalso
      obtain ⟨plr, hmem, hdead, hlt⟩ := hex
      have hpred := (findFirstIdx_eq_none_iff _ _).mp hfind plr hmem
      rw [Bool.and_eq_false_iff] at hpred
      rcases hpred with h | h
      · rw [hdead] at h
        exact absurd h (by decide)
      · rw [← Bool.not_eq_true, ltSqrtQ_iff] at h
        exact h hlt
    · refine ⟨⟨by simp [explode_fst], by simp [explode_fst]⟩,
        fun _ => by simp [explode_fst], fun _ =>
          ⟨fun _ => by simp [explode_fst], fun hnone => ?_⟩⟩
      exfalso
      obtain ⟨plr, hmem, hpred⟩ := findFirstIdx_some_exists _ _ _ hfind
      rw [Bool.and_eq_true, Bool.not_eq_true'] at hpred
      obtain ⟨hdead, hlt⟩ := hpred
      rw [ltSqrtQ_iff] at hlt
      exact (hnone plr hmem hdead) hlt

/-- Claim C7: in wrap mode a projectile whose `x` exceeds the world width
reappears at `x - worldWidth` (and one with `x < 0` at `x + worldWidth`); its
`y` coordinate is never wrapped, and vertical culling — removing a projectile
that falls far below or flies far above the world — applies in both wrap and
non-wrap modes. -/
theorem claim_C7_bounds (p : Projectile) :
    (∀ wrap : Bool, (applyBounds wrap p).y = p.y) ∧
    (WORLD_WIDTH < p.x → (applyBounds true p).x = p.x - WORLD_WIDTH) ∧
    (p.x < 0 → (applyBounds true p).x = p.x + WORLD_WIDTH) ∧
    (∀ wrap : Bool, (WORLD_HEIGHT + 50 < p.y ∨ p.y < -400) →
      (applyBounds wrap p).alive = false) := by
  refine ⟨?_, ?_, ?_, ?_⟩
  · intro wrap
    cases wrap <;> simp only [applyBounds] <;> split_ifs <;> rfl
  · intro hx
    have hx0 : ¬(p.x < 0) := by
      rw [not_lt]
      have : (0 : ℚ) < WORLD_WIDTH := by norm_num [WORLD_WIDTH]
      linarith
    simp only [applyBounds, if_pos rfl]
    rw [if_neg hx0, if_pos hx]
    split_ifs <;> rfl
  · intro hx
    simp only [applyBounds]
    rw [if_pos hx]
    split_ifs <;> rfl
  · intro wrap hy
    have hynw : p.y < -200 ∨ WORLD_HEIGHT + 50 < p.y := by
      rcases hy with h | h
      · right; exact h
      · left; linarith
    cases wrap <;> simp only [applyBounds] <;> split_ifs <;> first | rfl | tauto

/-! ### Concrete weapons, actors and projectiles for witnesses
(values from `constants.js`) -/

/-- Descriptor `WEAPONS.ROCKET_LAUNCHER` (the fields the simulator uses). -/
def rocketW : Weapon :=
  { damage := 35, blastRadius := 42, terrainDestruct := 1, speed := 9,
    gravity := 2/25, knockback := 8 }

/-- Descriptor `WEAPONS.CLUSTER_BOMB` (the fields the simulator uses). -/
def clusterW : Weapon :=
  { damage := 15, blastRadius := 18, terrainDestruct := 7/10, speed := 12,
    gravity := 2/25, knockback := 4, chargeable := true, minSpeed := 3/2,
    maxSpeed := 23, clusterCount := 5, clusterSpread := 4/5,
    subBlastRadius := some 14, subDamage := some 15, subTerrainDestruct := some (1/2) }

/-- A trivial scatter oracle. -/
def scatter0 : ℕ → ℚ × ℚ := fun _ => (0, 0)

noncomputable def emptyState : WSState := ⟨airGrid, false, [], [], []⟩

noncomputable def clusterParent : Projectile :=
  { weapon := clusterW, x := 100, y := 50, vx := 0, vy := 0, ownerIndex := 0,
    mineMode := true }

noncomputable def mineProj : Projectile :=
  { weapon := clusterW, x := 100, y := 50, vx := 0, vy := 0, ownerIndex := 0,
    isSub := true, isMine := true, landed := true }

noncomputable def proj1300 : Projectile :=
  { weapon := rocketW, x := 1300, y := 100, vx := 0, vy := 0, ownerIndex := 0 }

noncomputable def projHigh : Projectile :=
  { weapon := rocketW, x := 600, y := 800, vx := 0, vy := 0, ownerIndex := 0 }

noncomputable def nearActor : Actor :=
  { x := 95, y := 38, width := 20, height := 34, vx := 0, vy := 0, health := 100,
    dead := false, onGround := false, index := 1 }

noncomputable def midActor : Actor :=
  { x := -7, y := -13, width := 20, height := 34, vx := 0, vy := 0, health := 100,
    dead := false, onGround := false, index := 0 }

/-- An explosion event at the origin (blast radius 10, damage 20). -/
def blastEvent : ExplosionEvent :=
  { x := 0, y := 0, weapon := rocketW, ownerIndex := 1, blastRadius := 10,
    damage := 20, knockback := 8, directHitPlayerIdx := -1 }

/-- An explosion event centred exactly on `midActor`'s centre (3, 4). -/
def centreEvent : ExplosionEvent :=
  { x := 3, y := 4, weapon := rocketW, ownerIndex := 1, blastRadius := 10,
    damage := 20, knockback := 8, directHitPlayerIdx := -1 }

/-- Witness for C2: `midActor` (centre (3,4), distance 5 from the origin) is
live and takes `20 * (1 - 5/10) = 10` damage from `blastEvent`. -/
theorem claim_C2_witness :
    midActor.dead = false ∧ explosionDamageTo blastEvent midActor = 10 := by
  refine ⟨rfl, ?_⟩
  have h := (claim_C2_explosion_damage blastEvent midActor rfl).2.1 (by decide)
  have hd : (dist2 blastEvent.x blastEvent.y midActor.cx midActor.cy : ℚ) = 25 := by
    norm_num [dist2, Actor.cx, Actor.cy, blastEvent, midActor]
  have hs : Real.sqrt ((dist2 blastEvent.x blastEvent.y midActor.cx midActor.cy : ℚ) : ℝ)
      = 5 := by
    rw [hd, show ((25:ℚ):ℝ) = (5:ℝ)^2 by norm_num, Real.sqrt_sq (by norm_num : (0:ℝ) ≤ 5)]
  have h1 := h.1 (by rw [hs]; norm_num [blastEvent])
  rw [h1, hs]
  norm_num [blastEvent]

/-- Witness for C9: `midActor` stands exactly at the blast centre (3,4): it
receives no knockback, yet the damage formula grants it the full 20. -/
theorem claim_C9_witness :
    midActor.applyKnockback 3 4 8 10 = midActor ∧
    explosionDamageTo centreEvent midActor = 20 := by
  have h := claim_C9_knockback_guard midActor 3 4 8 10
  constructor
  · apply h.1
    left
    have h0 : ((midActor.cx - 3) * (midActor.cx - 3) +
        (midActor.cy - 4) * (midActor.cy - 4) : ℚ) = 0 := by
      norm_num [Actor.cx, Actor.cy, midActor]
    rw [h0]
    simp
  · have h2 := h.2 centreEvent (by decide)
      (by norm_num [centreEvent, Actor.cx, midActor])
      (by norm_num [centreEvent, Actor.cy, midActor])
      (by norm_num [centreEvent])
    rw [h2]
    norm_num [centreEvent]

/-- Witness for C5: detonating a full cluster bomb (`clusterCount = 5`, fired
in mine mode) in the empty state yields exactly 5 live submunitions, all
`isSub` with `isMine` inherited, and no pending explosion event. -/
theorem claim_C5_witness :
    ((emptyState.explode clusterParent (-1) scatter0).2.projectiles.length = 5) ∧
    (∀ q ∈ (emptyState.explode clusterParent (-1) scatter0).2.projectiles,
      q.isSub = true ∧ q.isMine = true) ∧
    (emptyState.explode clusterParent (-1) scatter0).2.pendingExplosions = [] := by
  obtain ⟨⟨subs, hproj, hlen, hflags⟩, hpend, -, -⟩ :=
    (claim_C5_cluster_split emptyState clusterParent (-1) scatter0).1 (by decide) rfl
  have hproj' : (emptyState.explode clusterParent (-1) scatter0).2.projectiles = subs := by
    rw [hproj]
    rfl
  refine ⟨?_, ?_, ?_⟩
  · rw [hproj', hlen]
    rfl
  · intro q hq
    rw [hproj'] at hq
    exact hflags q hq
  · rw [hpend]
    rfl

/-- Witness for C6: a landed cluster mine with a live actor at distance
`sqrt 50 < 30 = mineProximity` keeps its position and detonates on the next
update step. -/
theorem claim_C6_witness :
    (updateProjectile emptyState [nearActor] 16 scatter0 mineProj).1.x = 100 ∧
    (updateProjectile emptyState [nearActor] 16 scatter0 mineProj).1.y = 50 ∧
    (updateProjectile emptyState [nearActor] 16 scatter0 mineProj).1.alive = false := by
  have h := claim_C6_landed_mine emptyState [nearActor] 16 scatter0 mineProj rfl rfl
  have htime : (mineProj.age + 16 : ℚ) < jsOrQ mineProj.weapon.mineLifetime 10000 := by
    norm_num [mineProj, clusterW, jsOrQ]
  have hd : (dist2 mineProj.x mineProj.y nearActor.cx nearActor.cy : ℚ) = 50 := by
    norm_num [dist2, Actor.cx, Actor.cy, mineProj, nearActor]
  have hex : ∃ plr ∈ [nearActor], plr.dead = false ∧
      Real.sqrt ((dist2 mineProj.x mineProj.y plr.cx plr.cy : ℚ) : ℝ) <
        ((jsOrQ mineProj.weapon.mineProximity 30 : ℚ) : ℝ) := by
    refine ⟨nearActor, by simp, rfl, ?_⟩
    rw [hd]
    have h30 : ((jsOrQ mineProj.weapon.mineProximity 30 : ℚ) : ℝ) = 30 := by
      norm_num [mineProj, clusterW, jsOrQ]
    rw [h30, Real.sqrt_lt' (by norm_num : (0:ℝ) < 30)]
    norm_num
  exact ⟨h.1.1, h.1.2, (h.2.2 htime).1 hex⟩

/-- Witness for C7: a projectile at `x = 1300 > 1200` wraps to `x = 100` with
`y` untouched, and a projectile at `y = 800 > 750` is culled in non-wrap
mode. -/
theorem claim_C7_witness :
    (applyBounds true proj1300).x = 100 ∧
    (applyBounds true proj1300).y = 100 ∧
    (applyBounds false projHigh).alive = false := by
  refine ⟨?_, ?_, ?_⟩
  · have h := (claim_C7_bounds proj1300).2.1 (by norm_num [WORLD_WIDTH, proj1300])
    rw [h]
    norm_num [proj1300, WORLD_WIDTH]
  · exact ((claim_C7_bounds proj1300).1 true).trans rfl
  · exact (claim_C7_bounds projHigh).2.2.2 false
      (Or.inl (by norm_num [WORLD_HEIGHT, projHigh]))

/-! ## Melee firing (`WeaponSystem._fireMelee`) -/

/-- Source `utils.normaliseAngle`: the pair of while loops folding an angle into
`[-π, π]`, written with the exact iteration counts of the loops. -/
noncomputable def normaliseAngle (a : ℝ) : ℝ :=
  if Real.pi < a then a - 2 * Real.pi * ⌈(a - Real.pi) / (2 * Real.pi)⌉
  else if a < -Real.pi then a + 2 * Real.pi * ⌈(-Real.pi - a) / (2 * Real.pi)⌉
  else a

/-- JS `Math.atan2(y, x)` (the signed-zero distinctions of the float version
collapse in the exact model). -/
noncomputable def jsAtan2 (y x : ℝ) : ℝ :=
  if 0 < x then Real.arctan (y / x)
  else if x < 0 then
    (if 0 ≤ y then Real.arctan (y / x) + Real.pi else Real.arctan (y / x) - Real.pi)
  else
    (if 0 < y then Real.pi / 2 else if y < 0 then -(Real.pi / 2) else 0)

/-- The player-scan loop of `_fireMelee` from list position `i`: skip the
owner; skip any player whose `alive` property is not truthy — `Player`
defines only `dead`, never `alive`, so `!p.alive` reads `undefined` and skips
every real player; skip players beyond `meleeRange` or outside `meleeArc` of
the aim; append one direct-hit event per remaining match. -/
noncomputable def meleeHitEvents (w : Weapon) (x y : ℚ) (aimAngle : ℝ) (ownerIndex : ℤ) :
    ℕ → List Actor → List ExplosionEvent
  | _, [] => []
  | i, plr :: rest =>
    if (i : ℤ) = ownerIndex then meleeHitEvents w x y aimAngle ownerIndex (i + 1) rest
    else if jsTruthy plr.alive = false then meleeHitEvents w x y aimAngle ownerIndex (i + 1) rest
    else if ((jsOrQ w.meleeRange 40 : ℚ) : ℝ) <
        Real.sqrt ((dist2 x y plr.cx plr.cy : ℚ) : ℝ) then
      meleeHitEvents w x y aimAngle ownerIndex (i + 1) rest
    else if ((jsOrQ w.meleeArc (4/5) : ℚ) : ℝ) <
        |normaliseAngle (jsAtan2 ((plr.cy - y : ℚ) : ℝ) ((plr.cx - x : ℚ) : ℝ) - aimAngle)| then
      meleeHitEvents w x y aimAngle ownerIndex (i + 1) rest
    else
      { x := plr.cx, y := plr.cy, weapon := w, ownerIndex := ownerIndex,
        blastRadius := jsOrQ w.meleeRange 40, damage := w.damage, knockback := w.knockback,
        directHitPlayerIdx := (i : ℤ) } :: meleeHitEvents w x y aimAngle ownerIndex (i + 1) rest

/-- Source `WeaponSystem._fireMelee(weapon, x, y, aimAngle, ownerIndex)`: destroy a
small terrain disc at the dig point offset by `0.42 * meleeRange` along the
aim direction (power 2), then scan `this.players` for melee hits and queue
the damage events (debris particles omitted).  No projectile is created. -/
noncomputable def fireMelee (s : WSState) (w : Weapon) (x y : ℚ) (aimAngle : ℝ)
    (ownerIndex : ℤ) : WSState :=
  { s with
    terrain := (s.terrain.destroyCircleR
      ((x : ℝ) + Real.cos aimAngle * (((jsOrQ w.meleeRange 40 : ℚ) : ℝ) * (42/100)))
      ((y : ℝ) + Real.sin aimAngle * (((jsOrQ w.meleeRange 40 : ℚ) : ℝ) * (42/100)))
      (w.blastRadius * w.terrainDestruct) 2).1,
    pendingExplosions := s.pendingExplosions ++
      meleeHitEvents w x y aimAngle ownerIndex 0 s.players }

/-- A melee ("Dig") weapon descriptor — the shipped weapon list defines no
melee weapon, so the descriptor is caller-supplied. -/
def digW : Weapon :=
  { damage := 25, blastRadius := 10, terrainDestruct := 1/2, knockback := 4,
    melee := true, meleeRange := some 40, meleeArc := some (4/5) }

/-- The firing player, centred at (0,0) (a `Player`: `alive` undefined). -/
noncomputable def meleeOwner : Actor :=
  { x := -10, y := -17, width := 20, height := 34, vx := 0, vy := 0, health := 100,
    dead := false, onGround := false, index := 0 }

/-- A live target centred at (30,0) (a `Player`: `alive` undefined). -/
noncomputable def meleeTarget : Actor :=
  { x := 20, y := -17, width := 20, height := 34, vx := 0, vy := 0, health := 100,
    dead := false, onGround := false, index := 1 }

noncomputable def meleeState : WSState :=
  ⟨matchGrid, false, [], [], [meleeOwner, meleeTarget]⟩

/-- Claim C3 (code bug): firing a melee weapon from (0,0) at aim angle 0 with
the live target `meleeTarget` centred at (30,0) — within `meleeRange = 40`
and at angle difference 0, inside `meleeArc` — appends NO pending explosion
event, although the claim requires one direct-hit event for that target: the
scan tests `p.alive`, a property `Player` never defines, so every actor is
skipped.  (No projectile is created, as claimed.) -/
theorem claim_C3_melee_bug :
    meleeTarget.dead = false ∧
    Real.sqrt ((dist2 0 0 meleeTarget.cx meleeTarget.cy : ℚ) : ℝ) ≤
      ((jsOrQ digW.meleeRange 40 : ℚ) : ℝ) ∧
    normaliseAngle (jsAtan2 ((meleeTarget.cy - 0 : ℚ) : ℝ) ((meleeTarget.cx - 0 : ℚ) : ℝ) - 0)
      = 0 ∧
    (fireMelee meleeState digW 0 0 0 0).pendingExplosions = [] ∧
    (fireMelee meleeState digW 0 0 0 0).projectiles = [] := by
  refine ⟨rfl, ?_, ?_, ?_, rfl⟩
  · have hd : (dist2 0 0 meleeTarget.cx meleeTarget.cy : ℚ) = 900 := by
      norm_num [dist2, Actor.cx, Actor.cy, meleeTarget]
    rw [hd, show ((900:ℚ):ℝ) = (30:ℝ)^2 by norm_num,
      Real.sqrt_sq (by norm_num : (0:ℝ) ≤ 30)]
    norm_num [digW, jsOrQ]
  · have hcy : ((meleeTarget.cy - 0 : ℚ) : ℝ) = 0 := by
      norm_num [Actor.cy, meleeTarget]
    have hcx : ((meleeTarget.cx - 0 : ℚ) : ℝ) = 30 := by
      norm_num [Actor.cx, meleeTarget]
    have hatan : jsAtan2 0 30 = 0 := by
      unfold jsAtan2
      rw [if_pos (by norm_num : (0:ℝ) < 30)]
      norm_num [Real.arctan_zero]
    have hdiff : jsAtan2 ((meleeTarget.cy - 0 : ℚ) : ℝ) ((meleeTarget.cx - 0 : ℚ) : ℝ) - 0
        = 0 := by
      rw [hcy, hcx, hatan]
      ring
    rw [hdiff]
    unfold normaliseAngle
    rw [if_neg (not_lt.mpr Real.pi_pos.le),
      if_neg (not_lt.mpr (neg_nonpos.mpr Real.pi_pos.le))]
  · show ([] : List ExplosionEvent) ++
        meleeHitEvents digW 0 0 0 0 0 [meleeOwner, meleeTarget] = []
    rw [List.nil_append]
    rw [meleeHitEvents, if_pos (show (((0:ℕ):ℤ)) = (0:ℤ) from rfl)]
    rw [meleeHitEvents, if_neg (show ¬(((0+1:ℕ):ℤ)) = (0:ℤ) from by decide),
      if_pos (show jsTruthy meleeTarget.alive = false from rfl)]
    rw [meleeHitEvents]

end Boomer
